import Mathlib

/-!
# Orbital mechanics of `ACelestialBody` (CelestialBody.cpp)

Shallow embedding of the orbital-mechanics core of
`Source/InteractiveVRGalaxy/Celestial/CelestialBody.cpp`.

Number model.  The C++ code computes with `float`.  `F32` below is IEEE 754
binary32 with round-to-nearest-even: NaN, the two infinities, signed zero,
subnormals, overflow and underflow are all modelled, and every arithmetic
operator of the source rounds its exact result (`F32.add`, `F32.mul`, ...).
Each operation of a source expression is evaluated in single precision, in the
order the expression is written.

Engine and C library functions are not part of the repository.  `FMath::Sin`,
`FMath::Cos`, `FMath::Sqrt`, the rotator version of `FMath::Lerp` and the
constants `PI`, `PI2`, `DEG_TO_RAD`, `RAD_TO_DEG` are parameters (`FMath`,
`Engine`): the theorems hold for every choice of them, under the stated
assumptions on single values such as `sin 0 = 0`.  `FMath::Fmod` is the C
remainder `fmodf` and `FMath::Lerp` on floats and vectors is
`A + Alpha * (B - A)`.

`CalculateSemiMinorAxis` is not in the source file; it is modelled from the
spec over the real numbers.
-/

namespace CelestialBody

/-- Engine vector type `FVector` (three float components). -/
structure FVector (F : Type) where
  X : F
  Y : F
  Z : F
deriving DecidableEq

/-- Engine rotator type `FRotator(Pitch, Yaw, Roll)`. -/
structure FRotator (F : Type) where
  Pitch : F
  Yaw : F
  Roll : F
deriving DecidableEq

/-- Componentwise `FVector::operator+`. -/
def FVector.add {F : Type} [Add F] (u v : FVector F) : FVector F :=
  ⟨u.X + v.X, u.Y + v.Y, u.Z + v.Z⟩

/-- The trigonometric functions and angle constants the source takes from the
engine math library and from the project header (which is not among the
sources): `FMath::Sin`, `FMath::Cos`, `FMath::Sqrt`, `PI`, `PI2`,
`DEG_TO_RAD`, `RAD_TO_DEG`.
They are parameters of every definition that uses them. -/
structure FMath (F : Type) where
  PI : F
  PI2 : F
  DEG_TO_RAD : F
  RAD_TO_DEG : F
  Sin : F → F
  Cos : F → F
  Sqrt : F → F

/-- The exact real-number math library: `PI = π`, `PI2 = 2π`,
`DEG_TO_RAD = π/180`, `RAD_TO_DEG = 180/π`, and the real sine, cosine and
square root. -/
noncomputable def FMath.real : FMath ℝ where
  PI := Real.pi
  PI2 := 2 * Real.pi
  DEG_TO_RAD := Real.pi / 180
  RAD_TO_DEG := 180 / Real.pi
  Sin := Real.sin
  Cos := Real.cos
  Sqrt := Real.sqrt

/-- The part of the root mesh component `m_Root` that `Move` writes: the last
world location and relative rotation set on it. -/
structure RootComponent (F : Type) where
  WorldLocation : FVector F
  RelativeRotation : FRotator F

/-- The fields of `ACelestialBody` read or written by the orbital code.
`m_Root` is a pointer in the source; `none` is the null pointer. -/
structure ACelestialBody (F : Type) where
  m_Root : Option (RootComponent F)
  m_CurrentSpeed : F
  m_Angle : F
  m_PlanetRotation : F
  m_RotateOrbitClockwise : Bool
  m_RotatePlanetClockwise : Bool
  m_VelocityScale : F
  m_RotationScale : F
  m_RadiusScale : F
  m_OrbitDistanceScale : F
  m_bMoveBody : Bool
  m_bMoveBodyTransition : Bool
  m_TransitionDelay : F
  m_TransitionTimer : F
  m_TransitionPosStart : FVector F
  m_TransitionRotStart : FRotator F
  m_MinSpeed : F
  m_MaxSpeed : F
  m_SemiMajorAxis : F
  m_SemiMinorAxis : F
  m_Eccentricity : F
  m_Perimeter : F
  m_OrbitPeriod : F
  m_LastOffset : F
  m_LastDistanceScale : F

/-- The actor this body is attached to (`Super::GetAttachParentActor()`), as
far as the orbital code looks at it: whether it is itself a celestial body,
its `GetRadiusWithScale()` in that case, and its `GetActorLocation()`. -/
structure AttachParent (F : Type) where
  IsCelestialBody : Bool
  RadiusWithScale : F
  ActorLocation : FVector F

/-- Constructor `ACelestialBody::ACelestialBody()` (lines 12-55): the values
it assigns; every other field is zero (engine objects are zero-filled before
the constructor runs) and the root component is created. -/
def ACelestialBody.ctor {F : Type} [OfNat F 0] [OfNat F 1] : ACelestialBody F where
  m_Root := some ⟨⟨0, 0, 0⟩, ⟨0, 0, 0⟩⟩
  m_CurrentSpeed := 0
  m_Angle := 0
  m_PlanetRotation := 0
  m_RotateOrbitClockwise := true
  m_RotatePlanetClockwise := false
  m_VelocityScale := 1
  m_RotationScale := 1
  m_RadiusScale := 1
  m_OrbitDistanceScale := 1
  m_bMoveBody := true
  m_bMoveBodyTransition := false
  m_TransitionDelay := 1
  m_TransitionTimer := 0
  m_TransitionPosStart := ⟨0, 0, 0⟩
  m_TransitionRotStart := ⟨0, 0, 0⟩
  m_MinSpeed := 0
  m_MaxSpeed := 0
  m_SemiMajorAxis := 0
  m_SemiMinorAxis := 0
  m_Eccentricity := 0
  m_Perimeter := 0
  m_OrbitPeriod := 0
  m_LastOffset := 0
  m_LastDistanceScale := 0

/-- Modelled from the spec: `CalculateSemiMinorAxis()` is called on lines 59
and 92 but defined in the header, which is not among the sources.  The spec
gives `calculateSemiMinorAxis(a, e) -> b` with `b = a·√(1−e²)`; the method
stores the result in `m_SemiMinorAxis`. -/
def CalculateSemiMinorAxis {F : Type} [LinearOrderedField F] (M : FMath F)
    (b : ACelestialBody F) : ACelestialBody F :=
  { b with m_SemiMinorAxis := b.m_SemiMajorAxis * M.Sqrt (1 - b.m_Eccentricity ^ 2) }

/-- A body as the constructor leaves it, with the given semi-major axis and
eccentricity. -/
def orbitBody {F : Type} [OfNat F 0] [OfNat F 1] (a e : F) : ACelestialBody F :=
  { (ACelestialBody.ctor : ACelestialBody F) with m_SemiMajorAxis := a, m_Eccentricity := e }

/-! ## Single-precision numbers -/

/-- Round-half-even of a rational to an integer. -/
def roundHalfEven (s : ℚ) : ℤ :=
  if s - ⌊s⌋ < 1 / 2 then ⌊s⌋
  else if 1 / 2 < s - ⌊s⌋ then ⌊s⌋ + 1
  else if ⌊s⌋ % 2 = 0 then ⌊s⌋ else ⌊s⌋ + 1

/-- Exponent of the binary32 unit in the last place at the positive magnitude
`a`: `e - 23` for `2 ^ e ≤ a < 2 ^ (e + 1)`, and `-149` below `2 ^ (-126)`
(subnormal range). -/
def ulpExp (a : ℚ) : ℤ :=
  max (Int.log 2 a) (-126) - 23

/-- The binary32 grid point nearest to the positive magnitude `a`, ties to the
even significand, before the overflow test. -/
def roundMag (a : ℚ) : ℚ :=
  (roundHalfEven (a / 2 ^ ulpExp a) : ℚ) * 2 ^ ulpExp a

/-- An IEEE 754 binary32 value (`float`): NaN, an infinity, negative zero, or a
finite value given by its rational value (`fin 0` is positive zero). -/
inductive F32 where
  | nan : F32
  | inf (neg : Bool) : F32
  | negZero : F32
  | fin (q : ℚ) : F32
deriving DecidableEq

namespace F32

/-- The zero with the given sign bit. -/
def zero (neg : Bool) : F32 :=
  if neg then negZero else fin 0

/-- Is the value a NaN. -/
def isNaN : F32 → Bool
  | nan => true
  | _ => false

/-- Is the value an infinity. -/
def isInf : F32 → Bool
  | inf _ => true
  | _ => false

/-- Is the value a zero of either sign. -/
def isZero : F32 → Bool
  | negZero => true
  | fin q => decide (q = 0)
  | _ => false

/-- Is the value neither NaN nor an infinity. -/
def isFinite : F32 → Bool
  | negZero => true
  | fin _ => true
  | _ => false

/-- The sign bit (`false` for NaN). -/
def sign : F32 → Bool
  | nan => false
  | inf s => s
  | negZero => true
  | fin q => decide (q < 0)

/-- The rational value of a finite number (0 for NaN and the infinities). -/
def val : F32 → ℚ
  | fin q => q
  | _ => 0

/-- Rounding of a non-zero exact result to binary32, round-to-nearest-even:
overflow gives an infinity, underflow a zero, both with the sign of `q`. -/
def round (q : ℚ) : F32 :=
  if 2 ^ 128 ≤ roundMag |q| then inf (decide (q < 0))
  else if roundMag |q| = 0 then zero (decide (q < 0))
  else fin (if q < 0 then -roundMag |q| else roundMag |q|)

/-- The float for an exact result `q`; an exact zero takes the sign bit `s`. -/
def ofExact (q : ℚ) (s : Bool) : F32 :=
  if q = 0 then zero s else round q

/-- Unary minus: flips the sign bit. -/
def neg : F32 → F32
  | nan => nan
  | inf s => inf (!s)
  | negZero => fin 0
  | fin q => if q = 0 then negZero else fin (-q)

/-- Binary32 addition. -/
def add (x y : F32) : F32 :=
  if x.isNaN || y.isNaN then nan
  else if x.isInf then (if y.isInf && (x.sign != y.sign) then nan else x)
  else if y.isInf then y
  else ofExact (x.val + y.val) (x.sign && y.sign)

/-- Binary32 subtraction: `x - y = x + (-y)`. -/
def sub (x y : F32) : F32 :=
  add x (neg y)

/-- Binary32 multiplication. -/
def mul (x y : F32) : F32 :=
  if x.isNaN || y.isNaN then nan
  else if x.isInf || y.isInf then
    (if x.isZero || y.isZero then nan else inf (x.sign != y.sign))
  else ofExact (x.val * y.val) (x.sign != y.sign)

/-- Binary32 division. -/
def div (x y : F32) : F32 :=
  if x.isNaN || y.isNaN then nan
  else if x.isInf then (if y.isInf then nan else inf (x.sign != y.sign))
  else if y.isInf then zero (x.sign != y.sign)
  else if y.isZero then (if x.isZero then nan else inf (x.sign != y.sign))
  else ofExact (x.val / y.val) (x.sign != y.sign)

/-- The comparison `x <= y` of C: false when either side is NaN. -/
def le (x y : F32) : Bool :=
  match x, y with
  | nan, _ => false
  | _, nan => false
  | inf true, _ => true
  | _, inf false => true
  | inf false, _ => false
  | _, inf true => false
  | x, y => decide (x.val ≤ y.val)

/-- The comparison `x == y` of C: false when either side is NaN, true for
zeros of different sign. -/
def eq (x y : F32) : Bool :=
  le x y && le y x

instance : Add F32 := ⟨add⟩
instance : Sub F32 := ⟨sub⟩
instance : Mul F32 := ⟨mul⟩
instance : Div F32 := ⟨div⟩
instance : Neg F32 := ⟨neg⟩
instance (n : ℕ) : OfNat F32 n := ⟨fin n⟩

end F32

/-- Truncation of a rational toward zero. -/
def truncQ (q : ℚ) : ℤ :=
  if 0 ≤ q then ⌊q⌋ else ⌈q⌉

/-- Engine function `FMath::Fmod(X, Y)` as the C library remainder `fmodf`:
NaN when `X` is not finite or `Y` is zero or NaN, `X` when `Y` is infinite, and
otherwise the exact value `X - n * Y` with `n` the quotient `X / Y` truncated
toward zero (the remainder of two floats is a float, so nothing is rounded); a
zero result has the sign of `X`. -/
def Fmod (x y : F32) : F32 :=
  if x.isNaN || y.isNaN || x.isInf || y.isZero then F32.nan
  else if y.isInf then x
  else if x.val - (truncQ (x.val / y.val) : ℚ) * y.val = 0 then F32.zero x.sign
  else F32.fin (x.val - (truncQ (x.val / y.val) : ℚ) * y.val)

/-- Engine function `FMath::Lerp(A, B, Alpha)` on floats: `A + Alpha * (B - A)`. -/
def Lerp (a b alpha : F32) : F32 :=
  a + alpha * (b - a)

/-- A rational is a finite binary32 value: `± m * 2 ^ k` with a 24-bit
significand `m` and `-149 ≤ k ≤ 104`. -/
def IsRep (q : ℚ) : Prop :=
  ∃ (m : ℕ) (k : ℤ), m < 2 ^ 24 ∧ -149 ≤ k ∧ k ≤ 104 ∧ |q| = (m : ℚ) * 2 ^ k

/-- The value is a genuine binary32 number (the carrier also holds finite
values that are off the grid; no operation produces them). -/
def F32.IsFloat : F32 → Prop
  | F32.fin q => IsRep q
  | _ => True

/-- Position of a value on the extended line: the infinities sit at
`± 2 ^ 128`, just outside the finite binary32 range. -/
def F32.ext : F32 → ℚ
  | F32.inf s => if s then -(2 ^ 128) else 2 ^ 128
  | F32.fin q => q
  | _ => 0

/-- The value is not NaN and, when finite, lies strictly inside `± 2 ^ 128`. -/
def F32.Bounded : F32 → Prop
  | F32.nan => False
  | F32.fin q => |q| < 2 ^ 128
  | _ => True

/-- Position on the extended line of the rounding of the exact result `q`:
the rounded magnitude, capped at `2 ^ 128`, with the sign of `q`. -/
def clampRound (q : ℚ) : ℚ :=
  if 0 < q then min (roundMag q) (2 ^ 128)
  else if q < 0 then -min (roundMag (-q)) (2 ^ 128)
  else 0

/-! ## The celestial body in single precision -/

/-- Everything `Move` takes from outside the repository: the math library and
`FMath::Lerp` on rotators, whose definition is engine code. -/
structure Engine extends FMath F32 where
  LerpRotator : FRotator F32 → FRotator F32 → F32 → FRotator F32

/-- Engine function `FMath::Lerp` on `FVector`: the template
`A + Alpha * (B - A)` with the componentwise vector operators. -/
def LerpVector (a b : FVector F32) (alpha : F32) : FVector F32 :=
  ⟨Lerp a.X b.X alpha, Lerp a.Y b.Y alpha, Lerp a.Z b.Z alpha⟩

/-- Source `ACelestialBody::CalculateRotation` (lines 174-178). -/
def CalculateRotation (M : FMath F32) (b : ACelestialBody F32) (radians : F32) : F32 :=
  let rotation := Fmod (b.m_OrbitPeriod * b.m_RotationScale * (radians / M.PI2)) 1 * M.PI2
  if b.m_RotatePlanetClockwise then rotation else -rotation

/-- Source `ACelestialBody::CalculateVelocity` (lines 180-183). -/
def CalculateVelocity (M : FMath F32) (b : ACelestialBody F32) (radians : F32) : F32 :=
  (b.m_MinSpeed + (b.m_MaxSpeed - b.m_MinSpeed) * M.Sin (radians / 2)) * b.m_VelocityScale

/-- Source `ACelestialBody::CalculatePosition` (lines 191-202).  `parent` is
`Super::GetAttachParentActor()`; line 201 dereferences it without a test, so
for a body without parent there is no result (`none`). -/
def CalculatePosition (M : FMath F32) (b : ACelestialBody F32)
    (parent : Option (AttachParent F32)) (radians offset distanceScale : F32) :
    Option (FVector F32) :=
  let X := (offset + b.m_SemiMajorAxis * distanceScale * b.m_OrbitDistanceScale) * -M.Cos radians
  let Y := (offset + b.m_SemiMinorAxis * distanceScale * b.m_OrbitDistanceScale) * M.Sin radians
  let Z : F32 := 0
  let Y := if !b.m_RotateOrbitClockwise then -Y else Y
  match parent with
  | none => none
  | some p => some (p.ActorLocation.add ⟨X, Y, Z⟩)

/-- Modelled from the spec: the accessor `GetAngleToCenter()` is declared in
the header, which is not among the sources; the spec's step evaluates the
velocity at the state's current angle in degrees, so the accessor returns
`m_Angle`. -/
def GetAngleToCenter (b : ACelestialBody F32) : F32 :=
  b.m_Angle

/-- How a call of `Move` ends: it returns with the new state of the body, one
of its `check(...)` assertions fails, or it dereferences a null pointer; the
last two carry the state of the body at that moment. -/
inductive MoveResult where
  | returned (b : ACelestialBody F32)
  | checkFailed (b : ACelestialBody F32)
  | nullDereference (b : ACelestialBody F32)

/-- The value of the local `kmPerDegree` of `Move` (line 334). -/
def kmPerDegree (b : ACelestialBody F32) (distanceScale : F32) : F32 :=
  b.m_Perimeter * distanceScale * b.m_OrbitDistanceScale / 360

/-- The amount `Move` adds to `m_Angle` on line 349, for the given velocity. -/
def angleIncrement (b : ACelestialBody F32) (velocity timeScale distanceScale delta : F32) :
    F32 :=
  velocity * distanceScale * b.m_OrbitDistanceScale * timeScale * delta
    / kmPerDegree b distanceScale

/-- Source `ACelestialBody::Move` (lines 328-376).  `parent` is
`Super::GetAttachParentActor()` and `center` is the value of
`center->GetRadiusWithScale()`; either is `none` for a null pointer. -/
def Move (E : Engine) (b : ACelestialBody F32) (parent : Option (AttachParent F32))
    (center : Option F32) (timeScale distanceScale delta : F32) : MoveResult :=
  match b.m_Root with
  | none => .checkFailed b
  | some _ =>
    let velocity := CalculateVelocity E.toFMath b (GetAngleToCenter b * E.DEG_TO_RAD)
    let b := { b with m_CurrentSpeed := velocity }
    if F32.eq (kmPerDegree b distanceScale) 0 then .checkFailed b else
    match parent with
    | none => .nullDereference b
    | some p =>
      match (if p.IsCelestialBody then some p.RadiusWithScale else center) with
      | none => .nullDereference b
      | some offset =>
        let b := { b with m_LastOffset := offset, m_LastDistanceScale := distanceScale }
        let b := { b with
          m_Angle := b.m_Angle + angleIncrement b velocity timeScale distanceScale delta }
        let b := { b with m_Angle := Fmod b.m_Angle 360 }
        let b := { b with
          m_PlanetRotation :=
            CalculateRotation E.toFMath b (b.m_Angle * E.DEG_TO_RAD) * E.RAD_TO_DEG }
        if b.m_bMoveBody then
          match CalculatePosition E.toFMath b parent (b.m_Angle * E.DEG_TO_RAD) offset
              distanceScale with
          | none => .nullDereference b
          | some targetPosition =>
            let targetRotation : FRotator F32 := ⟨0, b.m_PlanetRotation, 0⟩
            if b.m_bMoveBodyTransition then
              let b := { b with m_TransitionTimer := b.m_TransitionTimer + delta }
              let b :=
                if F32.le b.m_TransitionDelay b.m_TransitionTimer then
                  { b with
                    m_bMoveBodyTransition := false, m_TransitionTimer := b.m_TransitionDelay }
                else b
              let perc := E.Sin (b.m_TransitionTimer / b.m_TransitionDelay * E.PI / 2)
              let location := LerpVector b.m_TransitionPosStart targetPosition perc
              let rotation := E.LerpRotator b.m_TransitionRotStart targetRotation perc
              .returned { b with m_Root := some ⟨location, rotation⟩ }
            else
              .returned { b with m_Root := some ⟨targetPosition, targetRotation⟩ }
        else
          .returned b

/-! ## Example inputs -/

/-- A math library for the examples.  The constants are the floats nearest to
`π` (the engine's `PI`, 3.14159274), `2π` (6.28318548), `π/180`
(0.0174532924) and `180/π` (57.2957802).  `Sin` and `Cos` are tabulated at the
few arguments the examples evaluate them at, with the values the C library
gives there: `sin(±0) = ±0`, `cos(±0) = 1`, `sin(PI/2) = 1`, `cos(PI) = -1`,
`sin(-PI2) = -1.74845553e-7`, `cos(-PI2) = 1`, `sin(2^27) = -0.763403237`,
`cos(2^27) = 0.645922244`; elsewhere the table has no entry and gives NaN. -/
def sampleMath : FMath F32 where
  PI := F32.fin (13176795 / 4194304)
  PI2 := F32.fin (13176795 / 2097152)
  DEG_TO_RAD := F32.fin (9370165 / 536870912)
  RAD_TO_DEG := F32.fin (15019745 / 262144)
  Sin := fun x =>
    if x.isZero then x
    else if x = F32.fin (13176795 / 8388608) then F32.fin 1
    else if x = F32.fin (-(13176795 / 2097152)) then F32.fin (-(6151831 / 35184372088832))
    else if x = F32.fin 134217728 then F32.fin (-(12807781 / 16777216))
    else F32.nan
  Cos := fun x =>
    if x.isZero then F32.fin 1
    else if x = F32.fin (13176795 / 4194304) then F32.fin (-1)
    else if x = F32.fin (-(13176795 / 2097152)) then F32.fin 1
    else if x = F32.fin 134217728 then F32.fin (10836777 / 16777216)
    else F32.nan
  Sqrt := fun _ => F32.nan

/-- The example math library with the float template of `FMath::Lerp` applied
to each component of a rotator. -/
def sampleEngine : Engine where
  toFMath := sampleMath
  LerpRotator := fun a b alpha =>
    ⟨Lerp a.Pitch b.Pitch alpha, Lerp a.Yaw b.Yaw alpha, Lerp a.Roll b.Roll alpha⟩

/-- A body as the constructor leaves it, with `m_MinSpeed = m_MaxSpeed = 1`
and `m_Perimeter = 360`, so that it moves one degree per unit of scaled time. -/
def unitSpeedBody : ACelestialBody F32 :=
  { (ACelestialBody.ctor : ACelestialBody F32) with
    m_MinSpeed := 1, m_MaxSpeed := 1, m_Perimeter := 360 }

/-- A body as the constructor leaves it (velocity scale 1), with the given
minimum and maximum speed. -/
def speedBody (minSpeed maxSpeed : F32) : ACelestialBody F32 :=
  { (ACelestialBody.ctor : ACelestialBody F32) with
    m_MinSpeed := minSpeed, m_MaxSpeed := maxSpeed }

/-- A parent actor at the origin that is not itself a celestial body. -/
def originParent : AttachParent F32 :=
  ⟨false, 0, ⟨0, 0, 0⟩⟩

/-- A body as the constructor leaves it, with `m_Perimeter = 360`, in a
transition (delay 1, timer 0) that started at `X = 12.3` (the float
`12897485 / 2^20`). -/
def blendBody : ACelestialBody F32 :=
  { (ACelestialBody.ctor : ACelestialBody F32) with
    m_Perimeter := 360, m_bMoveBodyTransition := true,
    m_TransitionPosStart := ⟨F32.fin (12897485 / 1048576), 0, 0⟩ }

/-- A parent actor at `X = -0.7` (the float `-11744051 / 2^24`) that is not
itself a celestial body. -/
def blendParent : AttachParent F32 :=
  ⟨false, 0, ⟨F32.fin (-(11744051 / 16777216)), 0, 0⟩⟩

/-- A body as the constructor leaves it, with `m_MinSpeed = m_MaxSpeed = 1`
and `m_Perimeter = 100`. -/
def hundredBody : ACelestialBody F32 :=
  { (ACelestialBody.ctor : ACelestialBody F32) with
    m_MinSpeed := 1, m_MaxSpeed := 1, m_Perimeter := 100 }

/-- A body as the constructor leaves it, with `m_OrbitPeriod = 2^127`,
`m_RotationScale = 2` and `m_Perimeter = 360`. -/
def spinBody : ACelestialBody F32 :=
  { (ACelestialBody.ctor : ACelestialBody F32) with
    m_OrbitPeriod := F32.fin 170141183460469231731687303715884105728,
    m_RotationScale := 2, m_Perimeter := 360 }

/-- A body as the constructor leaves it, with `m_MinSpeed = m_MaxSpeed = 1`,
`m_Perimeter = 360` and `m_OrbitPeriod = 3`. -/
def turningBody : ACelestialBody F32 :=
  { (ACelestialBody.ctor : ACelestialBody F32) with
    m_MinSpeed := 1, m_MaxSpeed := 1, m_Perimeter := 360, m_OrbitPeriod := 3 }

/-! ## Facts about rounding -/

theorem floor_le_roundHalfEven (s : ℚ) : ⌊s⌋ ≤ roundHalfEven s := by
  unfold roundHalfEven
  split_ifs <;> omega

theorem roundHalfEven_le_floor_add_one (s : ℚ) : roundHalfEven s ≤ ⌊s⌋ + 1 := by
  unfold roundHalfEven
  split_ifs <;> omega

theorem roundHalfEven_intCast (n : ℤ) : roundHalfEven (n : ℚ) = n := by
  simp [roundHalfEven]

theorem roundHalfEven_mono {s t : ℚ} (h : s ≤ t) : roundHalfEven s ≤ roundHalfEven t := by
  rcases (Int.floor_mono h).lt_or_eq with hlt | heq
  · calc roundHalfEven s ≤ ⌊s⌋ + 1 := roundHalfEven_le_floor_add_one s
      _ ≤ ⌊t⌋ := hlt
      _ ≤ roundHalfEven t := floor_le_roundHalfEven t
  · have hfr : s - ⌊s⌋ ≤ t - ⌊t⌋ := by rw [heq]; linarith
    unfold roundHalfEven
    rw [heq]
    split_ifs <;> first | omega | (exfalso; linarith)

/-- A rational within less than one half of an integer rounds to that integer. -/
theorem roundHalfEven_of_abs_sub_lt {s : ℚ} {n : ℤ} (h : |s - n| < 1 / 2) :
    roundHalfEven s = n := by
  rw [abs_lt] at h
  rcases le_or_lt (n : ℚ) s with hs | hs
  · have hf : ⌊s⌋ = n := by
      rw [Int.floor_eq_iff]; constructor <;> linarith
    unfold roundHalfEven
    rw [hf, if_pos (by linarith)]
  · have hf : ⌊s⌋ = n - 1 := by
      rw [Int.floor_eq_iff]; push_cast; constructor <;> linarith
    unfold roundHalfEven
    rw [hf]
    push_cast
    rw [if_neg (by linarith), if_pos (by linarith)]
    ring

theorem roundHalfEven_le_of_le_int {s : ℚ} {n : ℤ} (h : s ≤ n) : roundHalfEven s ≤ n := by
  have := roundHalfEven_mono h
  rwa [roundHalfEven_intCast] at this

theorem le_roundHalfEven_of_int_le {s : ℚ} {n : ℤ} (h : (n : ℚ) ≤ s) : n ≤ roundHalfEven s := by
  have := roundHalfEven_mono h
  rwa [roundHalfEven_intCast] at this

theorem two_zpow_pos (k : ℤ) : (0 : ℚ) < 2 ^ k :=
  zpow_pos (by norm_num) k

theorem two_zpow_le {j k : ℤ} (h : j ≤ k) : (2 : ℚ) ^ j ≤ 2 ^ k :=
  zpow_le_zpow_right₀ (by norm_num) h

/-- The defining bounds of the binary exponent: `2 ^ e ≤ a < 2 ^ (e + 1)`. -/
theorem log_bounds {a : ℚ} (ha : 0 < a) :
    (2 : ℚ) ^ Int.log 2 a ≤ a ∧ a < 2 ^ (Int.log 2 a + 1) := by
  have h1 := Int.zpow_log_le_self (b := 2) (by norm_num) ha
  have h2 := Int.lt_zpow_succ_log_self (b := 2) (by norm_num) a
  simpa using And.intro h1 h2

/-- The binary exponent is determined by the bounds. -/
theorem log_eq_of_bounds {a : ℚ} {e : ℤ} (hlo : (2 : ℚ) ^ e ≤ a) (hhi : a < 2 ^ (e + 1)) :
    Int.log 2 a = e := by
  have ha : 0 < a := lt_of_lt_of_le (two_zpow_pos e) hlo
  have h1 : e ≤ Int.log 2 a := by
    rw [← Int.zpow_le_iff_le_log (by norm_num) ha]
    simpa using hlo
  have h2 : Int.log 2 a < e + 1 := by
    rw [← Int.lt_zpow_iff_log_lt (by norm_num) ha]
    simpa using hhi
  omega

theorem ulpExp_mono {a b : ℚ} (ha : 0 < a) (h : a ≤ b) : ulpExp a ≤ ulpExp b := by
  unfold ulpExp
  have := Int.log_mono_right (b := 2) ha h
  omega

/-- The scaled magnitude is below `2 ^ 24`. -/
theorem scaled_lt {a : ℚ} (ha : 0 < a) : a / 2 ^ ulpExp a < 2 ^ (24 : ℤ) := by
  rw [div_lt_iff₀ (two_zpow_pos _), ← zpow_add₀ (by norm_num : (2 : ℚ) ≠ 0)]
  refine lt_of_lt_of_le (log_bounds ha).2 (two_zpow_le ?_)
  unfold ulpExp
  omega

/-- In the normal range the scaled magnitude is at least `2 ^ 23`. -/
theorem le_scaled {a : ℚ} (ha : 0 < a) (hnorm : -126 ≤ Int.log 2 a) :
    (2 : ℚ) ^ (23 : ℤ) ≤ a / 2 ^ ulpExp a := by
  rw [le_div_iff₀ (two_zpow_pos _), ← zpow_add₀ (by norm_num : (2 : ℚ) ≠ 0)]
  refine le_trans (two_zpow_le ?_) (log_bounds ha).1
  unfold ulpExp
  omega

theorem roundMag_nonneg {a : ℚ} (ha : 0 ≤ a) : 0 ≤ roundMag a := by
  unfold roundMag
  have h0 : ((0 : ℤ) : ℚ) ≤ a / 2 ^ ulpExp a := by
    simpa using div_nonneg ha (two_zpow_pos _).le
  have h1 : (0 : ℤ) ≤ roundHalfEven (a / 2 ^ ulpExp a) := le_roundHalfEven_of_int_le h0
  exact mul_nonneg (by exact_mod_cast h1) (two_zpow_pos _).le

/-- The rounded magnitude is at most the next power of two. -/
theorem roundMag_le_pow {a : ℚ} (ha : 0 < a) : roundMag a ≤ 2 ^ (ulpExp a + 24) := by
  unfold roundMag
  have h : roundHalfEven (a / 2 ^ ulpExp a) ≤ 2 ^ 24 := by
    apply roundHalfEven_le_of_le_int
    have := (scaled_lt ha).le
    norm_num at this ⊢
    exact this
  have h' : ((roundHalfEven (a / 2 ^ ulpExp a) : ℤ) : ℚ) ≤ 2 ^ (24 : ℤ) := by
    have := (Int.cast_le (R := ℚ)).mpr h
    norm_num at this ⊢
    exact this
  calc ((roundHalfEven (a / 2 ^ ulpExp a) : ℤ) : ℚ) * 2 ^ ulpExp a
      ≤ 2 ^ (24 : ℤ) * 2 ^ ulpExp a := mul_le_mul_of_nonneg_right h' (two_zpow_pos _).le
    _ = 2 ^ (ulpExp a + 24) := by
        rw [← zpow_add₀ (by norm_num : (2 : ℚ) ≠ 0)]; congr 1; ring

/-- In the normal range the rounded magnitude is at least the power of two
below `a`. -/
theorem pow_le_roundMag {a : ℚ} (ha : 0 < a) (hnorm : -126 ≤ Int.log 2 a) :
    (2 : ℚ) ^ (ulpExp a + 23) ≤ roundMag a := by
  unfold roundMag
  have h : (2 ^ 23 : ℤ) ≤ roundHalfEven (a / 2 ^ ulpExp a) := by
    apply le_roundHalfEven_of_int_le
    have := le_scaled ha hnorm
    norm_num at this ⊢
    exact this
  have h' : (2 : ℚ) ^ (23 : ℤ) ≤ ((roundHalfEven (a / 2 ^ ulpExp a) : ℤ) : ℚ) := by
    have := (Int.cast_le (R := ℚ)).mpr h
    norm_num at this ⊢
    exact this
  calc (2 : ℚ) ^ (ulpExp a + 23) = 2 ^ (23 : ℤ) * 2 ^ ulpExp a := by
        rw [← zpow_add₀ (by norm_num : (2 : ℚ) ≠ 0)]; congr 1; ring
    _ ≤ ((roundHalfEven (a / 2 ^ ulpExp a) : ℤ) : ℚ) * 2 ^ ulpExp a :=
        mul_le_mul_of_nonneg_right h' (two_zpow_pos _).le

/-- Rounding to nearest is monotone on positive magnitudes. -/
theorem roundMag_mono {a b : ℚ} (ha : 0 < a) (h : a ≤ b) : roundMag a ≤ roundMag b := by
  have hb : 0 < b := lt_of_lt_of_le ha h
  rcases (ulpExp_mono ha h).lt_or_eq with hlt | heq
  · have hnorm : -126 ≤ Int.log 2 b := by
      unfold ulpExp at hlt
      omega
    calc roundMag a ≤ 2 ^ (ulpExp a + 24) := roundMag_le_pow ha
      _ ≤ 2 ^ (ulpExp b + 23) := two_zpow_le (by omega)
      _ ≤ roundMag b := pow_le_roundMag hb hnorm
  · unfold roundMag
    rw [heq]
    have hs : a / 2 ^ ulpExp b ≤ b / 2 ^ ulpExp b :=
      div_le_div_of_nonneg_right h (two_zpow_pos _).le
    have := roundHalfEven_mono hs
    exact mul_le_mul_of_nonneg_right (by exact_mod_cast this) (two_zpow_pos _).le

/-- A magnitude `m * 2 ^ k` with `m < 2 ^ 24` and `k ≥ -149` is on the binary32
grid: rounding leaves it unchanged. -/
theorem roundMag_of_rep {m : ℕ} {k : ℤ} (hm : m < 2 ^ 24) (hk : -149 ≤ k) :
    roundMag ((m : ℚ) * 2 ^ k) = (m : ℚ) * 2 ^ k := by
  rcases Nat.eq_zero_or_pos m with rfl | hpos
  · simp [roundMag, roundHalfEven]
  have ha : (0 : ℚ) < (m : ℚ) * 2 ^ k := mul_pos (by exact_mod_cast hpos) (two_zpow_pos k)
  have hlog : Int.log 2 ((m : ℚ) * 2 ^ k) < 24 + k := by
    rw [← Int.lt_zpow_iff_log_lt (by norm_num) ha]
    have : (m : ℚ) < 2 ^ (24 : ℤ) := by
      have := (Nat.cast_lt (α := ℚ)).mpr hm
      norm_num at this ⊢
      exact this
    calc (m : ℚ) * 2 ^ k < 2 ^ (24 : ℤ) * 2 ^ k := mul_lt_mul_of_pos_right this (two_zpow_pos k)
      _ = ((2 : ℕ) : ℚ) ^ (24 + k) := by
          rw [← zpow_add₀ (by norm_num : (2 : ℚ) ≠ 0)]; simp
  have hp : ulpExp ((m : ℚ) * 2 ^ k) ≤ k := by
    unfold ulpExp
    omega
  obtain ⟨j, hj⟩ : ∃ j : ℕ, k = ulpExp ((m : ℚ) * 2 ^ k) + j :=
    ⟨(k - ulpExp ((m : ℚ) * 2 ^ k)).toNat, by omega⟩
  unfold roundMag
  have hscaled : (m : ℚ) * 2 ^ k / 2 ^ ulpExp ((m : ℚ) * 2 ^ k) = ((m * 2 ^ j : ℤ) : ℚ) := by
    rw [div_eq_iff (two_zpow_pos _).ne']
    conv_lhs => rw [hj]
    rw [zpow_add₀ (by norm_num : (2 : ℚ) ≠ 0)]
    push_cast
    rw [zpow_natCast]
    ring
  rw [hscaled, roundHalfEven_intCast, ← hscaled]
  exact div_mul_cancel₀ _ (two_zpow_pos _).ne'

/-- Evaluation of a rounding from a certificate: the binary exponent `e` of
`a` and an integer `n` within less than one half of the scaled magnitude. -/
theorem roundMag_eval {a : ℚ} (e n : ℤ) (hlo : (2 : ℚ) ^ e ≤ a) (hhi : a < 2 ^ (e + 1))
    (hn : |a / 2 ^ (max e (-126) - 23) - n| < 1 / 2) :
    roundMag a = (n : ℚ) * 2 ^ (max e (-126) - 23) := by
  have hlog := log_eq_of_bounds hlo hhi
  unfold roundMag ulpExp
  rw [hlog, roundHalfEven_of_abs_sub_lt hn]

/-- A rounded magnitude that did not overflow is a binary32 value. -/
theorem roundMag_isRep {a : ℚ} (h : ¬ ((2 : ℚ) ^ 128 ≤ roundMag |a|)) : IsRep (roundMag |a|) := by
  rcases eq_or_ne a 0 with rfl | ha0
  · refine ⟨0, 0, by norm_num, by norm_num, by norm_num, ?_⟩
    simp [roundMag, roundHalfEven]
  have ha : 0 < |a| := abs_pos.mpr ha0
  have hnn : 0 ≤ roundMag |a| := roundMag_nonneg ha.le
  have hn0 : (0 : ℤ) ≤ roundHalfEven (|a| / 2 ^ ulpExp |a|) :=
    le_roundHalfEven_of_int_le (by simpa using div_nonneg ha.le (two_zpow_pos _).le)
  have hn24 : roundHalfEven (|a| / 2 ^ ulpExp |a|) ≤ 2 ^ 24 := by
    apply roundHalfEven_le_of_le_int
    have := (scaled_lt ha).le
    norm_num at this ⊢
    exact this
  have hp : -149 ≤ ulpExp |a| := by unfold ulpExp; omega
  obtain ⟨n, hn⟩ : ∃ n : ℕ, roundHalfEven (|a| / 2 ^ ulpExp |a|) = n :=
    ⟨(roundHalfEven (|a| / 2 ^ ulpExp |a|)).toNat, by omega⟩
  have hval : roundMag |a| = (n : ℚ) * 2 ^ ulpExp |a| := by
    unfold roundMag
    rw [hn, Int.cast_natCast]
  have hn24' : n ≤ 2 ^ 24 := by
    rw [hn] at hn24
    norm_num at hn24 ⊢
    exact hn24
  unfold IsRep
  rw [abs_of_nonneg hnn]
  rcases hn24'.lt_or_eq with hlt | heq
  · refine ⟨n, ulpExp |a|, hlt, hp, ?_, hval⟩
    by_contra hbig
    push_neg at hbig
    have hnorm : -126 ≤ Int.log 2 |a| := by unfold ulpExp at hbig; omega
    have h1 := pow_le_roundMag ha hnorm
    have h2 : (2 : ℚ) ^ (128 : ℤ) ≤ 2 ^ (ulpExp |a| + 23) := two_zpow_le (by omega)
    apply h
    calc (2 : ℚ) ^ 128 = 2 ^ (128 : ℤ) := by norm_num
      _ ≤ 2 ^ (ulpExp |a| + 23) := h2
      _ ≤ roundMag |a| := h1
  · have hval2 : roundMag |a| = ((2 ^ 23 : ℕ) : ℚ) * 2 ^ (ulpExp |a| + 1) := by
      rw [hval, heq, zpow_add₀ (by norm_num : (2 : ℚ) ≠ 0)]
      norm_num
      ring
    refine ⟨2 ^ 23, ulpExp |a| + 1, by norm_num, by omega, ?_, hval2⟩
    by_contra hbig
    push_neg at hbig
    apply h
    rw [hval, heq]
    have h2 : (2 : ℚ) ^ (128 : ℤ) ≤ 2 ^ (ulpExp |a| + 24) := two_zpow_le (by omega)
    calc (2 : ℚ) ^ 128 = 2 ^ (128 : ℤ) := by norm_num
      _ ≤ 2 ^ (ulpExp |a| + 24) := h2
      _ = ((2 ^ 24 : ℕ) : ℚ) * 2 ^ ulpExp |a| := by
          rw [zpow_add₀ (by norm_num : (2 : ℚ) ≠ 0)]
          norm_num
          ring

namespace F32

theorem ofNat_eq (n : ℕ) : (OfNat.ofNat n : F32) = fin (n : ℚ) := rfl

theorem add_def (x y : F32) : x + y = add x y := rfl
theorem sub_def (x y : F32) : x - y = add x (neg y) := rfl
theorem mul_def (x y : F32) : x * y = mul x y := rfl
theorem div_def (x y : F32) : x / y = div x y := rfl
theorem neg_def (x : F32) : -x = neg x := rfl

theorem two_pow_128 : ((2 : ℚ) ^ 128) = 2 ^ (128 : ℤ) := by norm_num

/-- A representable magnitude is below `2 ^ 128`. -/
theorem rep_lt {m : ℕ} {k : ℤ} (hm : m < 2 ^ 24) (hk : k ≤ 104) :
    (m : ℚ) * 2 ^ k < 2 ^ 128 := by
  have h1 : (m : ℚ) < 2 ^ (24 : ℤ) := by
    have := (Nat.cast_lt (α := ℚ)).mpr hm
    norm_num at this ⊢
    exact this
  calc (m : ℚ) * 2 ^ k < 2 ^ (24 : ℤ) * 2 ^ k := mul_lt_mul_of_pos_right h1 (two_zpow_pos k)
    _ = 2 ^ (24 + k) := by rw [← zpow_add₀ (by norm_num : (2 : ℚ) ≠ 0)]
    _ ≤ 2 ^ (128 : ℤ) := two_zpow_le (by omega)
    _ = 2 ^ 128 := by norm_num

/-- Rounding leaves a non-zero binary32 value unchanged. -/
theorem round_of_rep {q : ℚ} (hq : q ≠ 0) (h : IsRep q) : round q = fin q := by
  obtain ⟨m, k, hm, hk, hk', habs⟩ := h
  have hr : roundMag |q| = |q| := by rw [habs]; exact roundMag_of_rep hm hk
  have hlt : ¬ ((2 : ℚ) ^ 128 ≤ |q|) := by rw [habs]; exact not_le.mpr (rep_lt hm hk')
  have hne : |q| ≠ 0 := abs_ne_zero.mpr hq
  unfold round
  rw [hr, if_neg hlt, if_neg hne]
  congr 1
  split_ifs with hneg
  · rw [abs_of_neg hneg]; ring
  · rw [abs_of_nonneg (not_lt.mp hneg)]

theorem isRep_zero : IsRep 0 := ⟨0, 0, by norm_num, by norm_num, by norm_num, by simp⟩

theorem isRep_neg {q : ℚ} (h : IsRep q) : IsRep (-q) := by
  obtain ⟨m, k, hm, hk, hk', habs⟩ := h
  exact ⟨m, k, hm, hk, hk', by rw [abs_neg]; exact habs⟩

theorem isFloat_zero (s : Bool) : (zero s).IsFloat := by
  cases s
  · exact isRep_zero
  · trivial

/-- Every result of a rounding is a binary32 value. -/
theorem round_isFloat (q : ℚ) : (round q).IsFloat := by
  unfold round
  split_ifs with h1 h2 h3
  · trivial
  · exact isFloat_zero _
  · exact isRep_neg (roundMag_isRep h1)
  · exact roundMag_isRep h1

theorem ofExact_isFloat (q : ℚ) (s : Bool) : (ofExact q s).IsFloat := by
  unfold ofExact
  split_ifs
  · exact isFloat_zero _
  · exact round_isFloat _

end F32

namespace F32

/-! ### Order -/

theorem le_iff_ext {x y : F32} (hx : x.Bounded) (hy : y.Bounded) :
    le x y = true ↔ x.ext ≤ y.ext := by
  have hpos : (0 : ℚ) < 2 ^ 128 := by norm_num
  cases x with
  | nan => exact absurd hx (by simp [Bounded])
  | inf s =>
    cases y with
    | nan => exact absurd hy (by simp [Bounded])
    | inf t => cases s <;> cases t <;> simp [le, ext]
    | negZero => cases s <;> simp [le, ext, val]
    | fin q =>
      have hq := abs_lt.mp (show |q| < 2 ^ 128 from hy)
      cases s <;> simp [le, ext, val] <;> linarith [hq.1, hq.2]
  | negZero =>
    cases y with
    | nan => exact absurd hy (by simp [Bounded])
    | inf t => cases t <;> simp [le, ext, val]
    | negZero => simp [le, ext, val]
    | fin q => simp [le, ext, val]
  | fin p =>
    have hp := abs_lt.mp (show |p| < 2 ^ 128 from hx)
    cases y with
    | nan => exact absurd hy (by simp [Bounded])
    | inf t => cases t <;> simp [le, ext, val] <;> linarith [hp.1, hp.2]
    | negZero => simp [le, ext, val]
    | fin q => simp [le, ext, val]

theorem clampRound_mono {p q : ℚ} (h : p ≤ q) : clampRound p ≤ clampRound q := by
  have hcap : (0 : ℚ) ≤ 2 ^ 128 := by norm_num
  unfold clampRound
  rcases lt_trichotomy p 0 with hp | hp | hp
  · rw [if_neg (not_lt.mpr hp.le), if_pos hp]
    have h1 : 0 ≤ min (roundMag (-p)) (2 ^ 128) :=
      le_min (roundMag_nonneg (by linarith)) hcap
    rcases lt_trichotomy q 0 with hq | hq | hq
    · rw [if_neg (not_lt.mpr hq.le), if_pos hq]
      have := roundMag_mono (a := -q) (b := -p) (by linarith) (by linarith)
      exact neg_le_neg (min_le_min this le_rfl)
    · rw [hq]; simp only [lt_self_iff_false, if_false]; linarith
    · rw [if_pos hq]
      have h2 : 0 ≤ min (roundMag q) (2 ^ 128) := le_min (roundMag_nonneg hq.le) hcap
      linarith
  · rw [hp] at h ⊢
    simp only [lt_self_iff_false, if_false]
    rcases h.lt_or_eq with hq | hq
    · rw [if_pos hq]; exact le_min (roundMag_nonneg hq.le) hcap
    · rw [← hq]; simp
  · have hq : 0 < q := lt_of_lt_of_le hp h
    rw [if_pos hp, if_pos hq]
    exact min_le_min (roundMag_mono hp h) le_rfl

theorem round_pos {q : ℚ} (hq : 0 < q) :
    round q = if 2 ^ 128 ≤ roundMag q then inf false else fin (roundMag q) := by
  unfold round
  rw [abs_of_pos hq]
  have h1 : ¬ q < 0 := not_lt.mpr hq.le
  simp only [h1, decide_False, if_false]
  split_ifs with h2 h3
  · rfl
  · rw [h3]; rfl
  · rfl

theorem round_neg {q : ℚ} (hq : q < 0) :
    round q = if 2 ^ 128 ≤ roundMag (-q) then inf true
      else if roundMag (-q) = 0 then negZero else fin (-roundMag (-q)) := by
  unfold round
  rw [abs_of_neg hq]
  simp only [hq, decide_True, if_true]
  rfl

theorem ofExact_bounded (q : ℚ) (s : Bool) : (ofExact q s).Bounded := by
  unfold ofExact
  split_ifs with h0
  · cases s <;> simp [zero, Bounded]
  · rcases lt_or_gt_of_ne h0 with hq | hq
    · rw [round_neg hq]
      have hnn := roundMag_nonneg (a := -q) (by linarith)
      split_ifs with h1 h2
      · trivial
      · trivial
      · show |(-roundMag (-q))| < 2 ^ 128
        rw [abs_neg, abs_of_nonneg hnn]
        exact not_le.mp h1
    · rw [round_pos hq]
      have hnn := roundMag_nonneg hq.le
      split_ifs with h1
      · trivial
      · show |roundMag q| < 2 ^ 128
        rw [abs_of_nonneg hnn]
        exact not_le.mp h1

theorem ext_ofExact (q : ℚ) (s : Bool) : (ofExact q s).ext = clampRound q := by
  unfold ofExact clampRound
  rcases lt_trichotomy q 0 with hq | hq | hq
  · rw [if_neg hq.ne, if_neg (not_lt.mpr hq.le), if_pos hq, round_neg hq]
    have hnn := roundMag_nonneg (a := -q) (by linarith)
    split_ifs with h3 h4
    · simp [ext, min_eq_right h3]
    · simp [ext, h4]
    · simp [ext, min_eq_left (not_le.mp h3).le]
  · rw [hq]
    cases s <;> simp [zero, ext]
  · rw [if_neg hq.ne', if_pos hq, round_pos hq]
    split_ifs with h3
    · simp [ext, min_eq_right h3]
    · simp [ext, min_eq_left (not_le.mp h3).le]

/-- Rounding is monotone: a smaller exact result gives a smaller float. -/
theorem ofExact_le_ofExact {p q : ℚ} (h : p ≤ q) (s t : Bool) :
    le (ofExact p s) (ofExact q t) = true := by
  rw [le_iff_ext (ofExact_bounded p s) (ofExact_bounded q t), ext_ofExact, ext_ofExact]
  exact clampRound_mono h

end F32

namespace F32

/-! ### Arithmetic on finite values -/

theorem val_zero (s : Bool) : (zero s).val = 0 := by
  cases s <;> rfl

theorem isFinite_zero (s : Bool) : (zero s).isFinite = true := by
  cases s <;> rfl

theorem add_finite {x y : F32} (hx : x.isFinite = true) (hy : y.isFinite = true) :
    x + y = ofExact (x.val + y.val) (x.sign && y.sign) := by
  cases x <;> cases y <;> simp_all [add_def, add, isFinite, isNaN, isInf]

theorem mul_finite {x y : F32} (hx : x.isFinite = true) (hy : y.isFinite = true) :
    x * y = ofExact (x.val * y.val) (x.sign != y.sign) := by
  cases x <;> cases y <;> simp_all [mul_def, mul, isFinite, isNaN, isInf]

theorem div_finite {x y : F32} (hx : x.isFinite = true) (hy : y.isFinite = true)
    (h0 : y.val ≠ 0) : x / y = ofExact (x.val / y.val) (x.sign != y.sign) := by
  cases x <;> cases y <;> simp_all [div_def, div, isFinite, isNaN, isInf, isZero, val]

theorem isFinite_ofExact_or (q : ℚ) (s : Bool) :
    (ofExact q s).isFinite = true ∨ ofExact q s = inf (decide (q < 0)) := by
  unfold ofExact round
  split_ifs <;> simp [isFinite, zero]
  all_goals (first | (cases s <;> simp [isFinite]) | (split_ifs <;> simp [isFinite]))

theorem isNaN_ofExact (q : ℚ) (s : Bool) : (ofExact q s).isNaN = false := by
  have h := ofExact_bounded q s
  cases hx : ofExact q s <;> simp_all [isNaN, Bounded]

theorem neg_neg_eq (x : F32) : -(-x) = x := by
  cases x with
  | nan => rfl
  | inf s => cases s <;> rfl
  | negZero => simp [neg_def, neg]
  | fin q =>
    by_cases hq : q = 0
    · simp [neg_def, neg, hq]
    · simp [neg_def, neg, hq]

theorem val_neg (x : F32) : (-x).val = -x.val := by
  cases x with
  | nan => simp [neg_def, neg, val]
  | inf s => simp [neg_def, neg, val]
  | negZero => simp [neg_def, neg, val]
  | fin q =>
    by_cases hq : q = 0
    · simp [neg_def, neg, val, hq]
    · simp [neg_def, neg, val, hq]

theorem isFinite_neg (x : F32) : (-x).isFinite = x.isFinite := by
  cases x with
  | nan => rfl
  | inf s => rfl
  | negZero => rfl
  | fin q => by_cases hq : q = 0 <;> simp [neg_def, neg, isFinite, hq]

theorem isNaN_neg (x : F32) : (-x).isNaN = x.isNaN := by
  cases x with
  | nan => rfl
  | inf s => rfl
  | negZero => rfl
  | fin q => by_cases hq : q = 0 <;> simp [neg_def, neg, isNaN, hq]

end F32

/-! ## Facts about `Move` -/

/-- With a root component, a non-zero `kmPerDegree`, an attached parent and a
centre, `Move` returns, and the returned state has the angle, rotation, speed,
offset and distance scale computed on lines 331-352. -/
theorem Move_returns (E : Engine) (b : ACelestialBody F32) (p : AttachParent F32)
    (c timeScale distanceScale delta : F32)
    (hroot : b.m_Root ≠ none) (hkm : F32.eq (kmPerDegree b distanceScale) 0 = false) :
    ∃ s, Move E b (some p) (some c) timeScale distanceScale delta = .returned s
      ∧ s.m_Angle = Fmod (b.m_Angle + angleIncrement b
          (CalculateVelocity E.toFMath b (GetAngleToCenter b * E.DEG_TO_RAD))
          timeScale distanceScale delta) 360
      ∧ s.m_PlanetRotation
          = CalculateRotation E.toFMath b (s.m_Angle * E.DEG_TO_RAD) * E.RAD_TO_DEG
      ∧ s.m_CurrentSpeed = CalculateVelocity E.toFMath b (GetAngleToCenter b * E.DEG_TO_RAD)
      ∧ s.m_LastDistanceScale = distanceScale
      ∧ s.m_LastOffset = (if p.IsCelestialBody then p.RadiusWithScale else c) := by
  have hkm' : F32.eq (b.m_Perimeter * distanceScale * b.m_OrbitDistanceScale / 360) 0 = false :=
    hkm
  cases hr : b.m_Root with
  | none => exact absurd hr hroot
  | some r =>
    unfold Move
    simp only [hr]
    simp only [kmPerDegree, hkm', CalculatePosition]
    cases hp : p.IsCelestialBody <;> simp only [Bool.false_eq_true, if_false, if_true] <;>
      split_ifs <;> exact ⟨_, rfl, rfl, rfl, rfl, rfl, rfl⟩

/-! ## Facts about `FMath::Fmod` -/

/-- The truncated remainder of a non-negative dividend lies in `[0, y)`. -/
theorem rem_of_nonneg {x y : ℚ} (hx : 0 ≤ x) (hy : 0 < y) :
    0 ≤ x - (truncQ (x / y) : ℚ) * y ∧ x - (truncQ (x / y) : ℚ) * y < y := by
  have hq : 0 ≤ x / y := div_nonneg hx hy.le
  have h1 : ((⌊x / y⌋ : ℤ) : ℚ) ≤ x / y := Int.floor_le _
  have h2 : x / y < (⌊x / y⌋ : ℤ) + 1 := Int.lt_floor_add_one _
  have hxy : x / y * y = x := div_mul_cancel₀ x hy.ne'
  have h3 : ((⌊x / y⌋ : ℤ) : ℚ) * y ≤ x / y * y := mul_le_mul_of_nonneg_right h1 hy.le
  have h4 : x / y * y < (((⌊x / y⌋ : ℤ) : ℚ) + 1) * y := mul_lt_mul_of_pos_right h2 hy
  simp only [truncQ, if_pos hq]
  constructor <;> nlinarith

/-- The truncated remainder of a negative dividend lies in `(-y, 0]`. -/
theorem rem_of_neg {x y : ℚ} (hx : x < 0) (hy : 0 < y) :
    -y < x - (truncQ (x / y) : ℚ) * y ∧ x - (truncQ (x / y) : ℚ) * y ≤ 0 := by
  have hq : ¬ 0 ≤ x / y := not_le.mpr (div_neg_of_neg_of_pos hx hy)
  have h1 : x / y ≤ ((⌈x / y⌉ : ℤ) : ℚ) := Int.le_ceil _
  have h2 : ((⌈x / y⌉ : ℤ) : ℚ) < x / y + 1 := Int.ceil_lt_add_one _
  have hxy : x / y * y = x := div_mul_cancel₀ x hy.ne'
  have h3 : x / y * y ≤ ((⌈x / y⌉ : ℤ) : ℚ) * y := mul_le_mul_of_nonneg_right h1 hy.le
  have h4 : ((⌈x / y⌉ : ℤ) : ℚ) * y < (x / y + 1) * y := mul_lt_mul_of_pos_right h2 hy
  simp only [truncQ, if_neg hq]
  constructor <;> nlinarith

/-- For a finite positive divisor the remainder is NaN or a finite value
strictly between `-y` and `y`. -/
theorem Fmod_nan_or_range (x : F32) {y : F32} (hy : y.isFinite = true) (hpos : 0 < y.val) :
    Fmod x y = F32.nan
      ∨ ((Fmod x y).isFinite = true ∧ -y.val < (Fmod x y).val ∧ (Fmod x y).val < y.val) := by
  have hyn : y.isNaN = false := by cases y <;> simp_all [F32.isFinite, F32.isNaN]
  have hyi : y.isInf = false := by cases y <;> simp_all [F32.isFinite, F32.isInf]
  have hyz : y.isZero = false := by
    cases y <;> simp_all [F32.isFinite, F32.isZero, F32.val]
    exact hpos.ne'
  by_cases hx : x.isNaN = true ∨ x.isInf = true
  · left
    unfold Fmod
    rcases hx with h | h <;> simp [h]
  · right
    push_neg at hx
    have hxn : x.isNaN = false := by simpa using hx.1
    have hxi : x.isInf = false := by simpa using hx.2
    unfold Fmod
    rw [if_neg (by simp [hxn, hyn, hxi, hyz]), if_neg (by simp [hyi])]
    have hb : -y.val < x.val - (truncQ (x.val / y.val) : ℚ) * y.val
        ∧ x.val - (truncQ (x.val / y.val) : ℚ) * y.val < y.val := by
      rcases le_or_lt 0 x.val with h | h
      · have := rem_of_nonneg h hpos
        exact ⟨by linarith [this.1], this.2⟩
      · have := rem_of_neg h hpos
        exact ⟨this.1, by linarith [this.2]⟩
    split_ifs with h0
    · exact ⟨F32.isFinite_zero _, by rw [F32.val_zero]; linarith, by rw [F32.val_zero]; exact hpos⟩
    · exact ⟨rfl, hb.1, hb.2⟩

/-- For a finite non-negative dividend and a finite positive divisor the
remainder is finite and lies in `[0, y)`. -/
theorem Fmod_of_nonneg {x y : F32} (hx : x.isFinite = true) (hx0 : 0 ≤ x.val)
    (hy : y.isFinite = true) (hpos : 0 < y.val) :
    (Fmod x y).isFinite = true ∧ 0 ≤ (Fmod x y).val ∧ (Fmod x y).val < y.val := by
  have hyn : y.isNaN = false := by cases y <;> simp_all [F32.isFinite, F32.isNaN]
  have hyi : y.isInf = false := by cases y <;> simp_all [F32.isFinite, F32.isInf]
  have hyz : y.isZero = false := by
    cases y <;> simp_all [F32.isFinite, F32.isZero, F32.val]
    exact hpos.ne'
  have hxn : x.isNaN = false := by cases x <;> simp_all [F32.isFinite, F32.isNaN]
  have hxi : x.isInf = false := by cases x <;> simp_all [F32.isFinite, F32.isInf]
  unfold Fmod
  rw [if_neg (by simp [hxn, hyn, hxi, hyz]), if_neg (by simp [hyi])]
  have hb := rem_of_nonneg hx0 hpos
  split_ifs with h0
  · exact ⟨F32.isFinite_zero _, by rw [F32.val_zero], by rw [F32.val_zero]; exact hpos⟩
  · exact ⟨rfl, hb.1, hb.2⟩

theorem isFinite_360 : (360 : F32).isFinite = true := rfl

theorem val_360 : (360 : F32).val = 360 := by
  simp [F32.ofNat_eq, F32.val]

theorem isFinite_one : (1 : F32).isFinite = true := rfl

theorem val_one : (1 : F32).val = 1 := by
  simp [F32.ofNat_eq, F32.val]

/-! ## Evaluating single operations -/

namespace F32

/-- Evaluation of the rounding of a positive exact result from a certificate:
its binary exponent `e`, the exponent `p` of its unit in the last place, and
the integer significand `n`, within less than one half of the scaled result. -/
theorem ofExact_eval_pos {q r : ℚ} (s : Bool) (e n p : ℤ) (hp : p = max e (-126) - 23)
    (hlo : (2 : ℚ) ^ e ≤ q) (hhi : q < 2 ^ (e + 1))
    (hn : |q / 2 ^ p - n| < 1 / 2) (hfin : (n : ℚ) * 2 ^ p < 2 ^ 128)
    (hr : r = (n : ℚ) * 2 ^ p) :
    ofExact q s = fin r := by
  have hq : 0 < q := lt_of_lt_of_le (two_zpow_pos e) hlo
  subst hp
  have hm : roundMag q = (n : ℚ) * 2 ^ (max e (-126) - 23) := roundMag_eval e n hlo hhi hn
  unfold ofExact
  rw [if_neg hq.ne', round_pos hq, hm, if_neg (not_le.mpr hfin), hr]

/-- Evaluation of the rounding of a negative exact result from a certificate
for its magnitude. -/
theorem ofExact_eval_neg {q r : ℚ} (s : Bool) (e n p : ℤ) (hp : p = max e (-126) - 23)
    (hlo : (2 : ℚ) ^ e ≤ -q) (hhi : -q < 2 ^ (e + 1))
    (hn : |-q / 2 ^ p - n| < 1 / 2) (hpos : 0 < n) (hfin : (n : ℚ) * 2 ^ p < 2 ^ 128)
    (hr : r = -((n : ℚ) * 2 ^ p)) :
    ofExact q s = fin r := by
  have hq : q < 0 := by linarith [lt_of_lt_of_le (two_zpow_pos e) hlo]
  subst hp
  have hm : roundMag (-q) = (n : ℚ) * 2 ^ (max e (-126) - 23) := roundMag_eval e n hlo hhi hn
  have hne : (n : ℚ) * 2 ^ (max e (-126) - 23) ≠ 0 :=
    mul_ne_zero (by exact_mod_cast hpos.ne') (two_zpow_pos _).ne'
  unfold ofExact
  rw [if_neg hq.ne, round_neg hq, hm, if_neg (not_le.mpr hfin), if_neg hne, hr]

theorem add_fin (a b : ℚ) :
    (fin a + fin b : F32) = ofExact (a + b) (decide (a < 0) && decide (b < 0)) := rfl

theorem mul_fin (a b : ℚ) :
    (fin a * fin b : F32) = ofExact (a * b) (decide (a < 0) != decide (b < 0)) := rfl

theorem div_fin (a b : ℚ) (hb : b ≠ 0) :
    (fin a / fin b : F32) = ofExact (a / b) (decide (a < 0) != decide (b < 0)) := by
  simp [div_def, div, isNaN, isInf, isZero, hb, val, sign]

theorem neg_fin (a : ℚ) (ha : a ≠ 0) : (-fin a : F32) = fin (-a) := by
  simp [neg_def, neg, ha]

theorem sub_fin (a b : ℚ) (hb : b ≠ 0) :
    (fin a - fin b : F32) = ofExact (a - b) (decide (a < 0) && decide (-b < 0)) := by
  rw [sub_def, ← neg_def, neg_fin b hb, ← add_def, add_fin, sub_eq_add_neg]

theorem ofExact_zero (s : Bool) : ofExact 0 s = zero s := by
  simp [ofExact]

end F32

/-! ## Values used by the examples -/

theorem sampleMath_Sin_zero : sampleMath.Sin (F32.fin 0) = F32.fin 0 := by
  simp [sampleMath, F32.isZero]

theorem sampleMath_Cos_zero : sampleMath.Cos (F32.fin 0) = F32.fin 1 := by
  simp [sampleMath, F32.isZero]

theorem sampleMath_Sin_halfPI :
    sampleMath.Sin (F32.fin (13176795 / 8388608)) = F32.fin 1 := by
  norm_num [sampleMath, F32.isZero]

theorem sampleMath_PI : sampleMath.PI = F32.fin (13176795 / 4194304) := rfl

theorem sampleMath_PI2 : sampleMath.PI2 = F32.fin (13176795 / 2097152) := rfl

theorem sampleMath_DEG_TO_RAD : sampleMath.DEG_TO_RAD = F32.fin (9370165 / 536870912) := rfl

theorem sampleMath_RAD_TO_DEG : sampleMath.RAD_TO_DEG = F32.fin (15019745 / 262144) := rfl

theorem sampleEngine_toFMath : sampleEngine.toFMath = sampleMath := rfl

theorem eq_one_zero : F32.eq 1 0 = false := by
  simp [F32.eq, F32.le, F32.ofNat_eq, F32.val]

theorem velocity_unitSpeedBody :
    CalculateVelocity sampleMath unitSpeedBody
      (GetAngleToCenter unitSpeedBody * sampleMath.DEG_TO_RAD) = 1 := by
  have r1 : (F32.fin 0 * F32.fin (9370165 / 536870912) : F32) = F32.fin 0 := by
    rw [F32.mul_fin]
    norm_num [F32.ofExact, F32.zero]
  have r2 : (F32.fin 0 / F32.fin 2 : F32) = F32.fin 0 := by
    rw [F32.div_fin _ _ (by norm_num)]
    norm_num [F32.ofExact, F32.zero]
  have r3 : (F32.fin 1 - F32.fin 1 : F32) = F32.fin 0 := by
    rw [F32.sub_fin _ _ (by norm_num)]
    norm_num [F32.ofExact, F32.zero]
  have r4 : (F32.fin 0 * F32.fin 0 : F32) = F32.fin 0 := by
    rw [F32.mul_fin]
    norm_num [F32.ofExact, F32.zero]
  have r5 : (F32.fin 1 + F32.fin 0 : F32) = F32.fin 1 := by
    rw [F32.add_fin]
    exact F32.ofExact_eval_pos _ 0 8388608 (-23) (by norm_num) (by norm_num) (by norm_num)
      (by norm_num [abs_lt]) (by norm_num) (by norm_num)
  have r6 : (F32.fin 1 * F32.fin 1 : F32) = F32.fin 1 := by
    rw [F32.mul_fin]
    exact F32.ofExact_eval_pos _ 0 8388608 (-23) (by norm_num) (by norm_num) (by norm_num)
      (by norm_num [abs_lt]) (by norm_num) (by norm_num)
  have hD : sampleMath.DEG_TO_RAD = F32.fin (9370165 / 536870912) := rfl
  simp only [CalculateVelocity, GetAngleToCenter, unitSpeedBody, ACelestialBody.ctor, hD,
    F32.ofNat_eq, Nat.cast_ofNat, Nat.cast_one, Nat.cast_zero, r1, r2, r3, sampleMath_Sin_zero,
    r4, r5, r6]

theorem kmPerDegree_unitSpeedBody : kmPerDegree unitSpeedBody 1 = 1 := by
  have k1 : (F32.fin 360 * F32.fin 1 : F32) = F32.fin 360 := by
    rw [F32.mul_fin]
    exact F32.ofExact_eval_pos _ 8 11796480 (-15) (by norm_num) (by norm_num) (by norm_num)
      (by norm_num [abs_lt]) (by norm_num) (by norm_num)
  have k2 : (F32.fin 360 / F32.fin 360 : F32) = F32.fin 1 := by
    rw [F32.div_fin _ _ (by norm_num)]
    exact F32.ofExact_eval_pos _ 0 8388608 (-23) (by norm_num) (by norm_num) (by norm_num)
      (by norm_num [abs_lt]) (by norm_num) (by norm_num)
  simp only [kmPerDegree, unitSpeedBody, ACelestialBody.ctor, F32.ofNat_eq, Nat.cast_ofNat,
    Nat.cast_one, Nat.cast_zero, k1, k2]

/-! ## Sign changes, unit factors and monotonicity of the operations -/

namespace F32

theorem isInf_neg (x : F32) : (-x).isInf = x.isInf := by
  cases x with
  | nan => rfl
  | inf s => rfl
  | negZero => rfl
  | fin q => by_cases hq : q = 0 <;> simp [neg_def, neg, isInf, hq]

theorem isZero_neg (x : F32) : (-x).isZero = x.isZero := by
  cases x with
  | nan => rfl
  | inf s => rfl
  | negZero => simp [neg_def, neg, isZero]
  | fin q => by_cases hq : q = 0 <;> simp [neg_def, neg, isZero, hq]

theorem sign_neg {x : F32} (hx : x.isNaN = false) : (-x).sign = !x.sign := by
  cases x with
  | nan => simp [isNaN] at hx
  | inf s => rfl
  | negZero => simp [neg_def, neg, sign]
  | fin q =>
    by_cases hq : q = 0
    · simp [neg_def, neg, sign, hq]
    · rcases lt_or_gt_of_ne hq with h | h
      · simp [neg_def, neg, sign, hq, h, h.le]
      · simp [neg_def, neg, sign, hq, h, h.le, not_lt.mpr h.le]

theorem neg_zero' (s : Bool) : -(zero s) = zero (!s) := by
  cases s <;> simp [zero, neg_def, neg]

theorem neg_round {q : ℚ} (hq : q ≠ 0) : -(round q) = round (-q) := by
  rcases lt_or_gt_of_ne hq with h | h
  · rw [round_neg h, round_pos (q := -q) (by linarith)]
    have hnn := roundMag_nonneg (a := -q) (by linarith)
    split_ifs with h1 h2
    · rfl
    · simp [neg_def, neg, h2]
    · simp [neg_def, neg, h2]
  · rw [round_pos h, round_neg (q := -q) (by linarith), neg_neg]
    split_ifs with h1 h2
    · rfl
    · simp [neg_def, neg, h2]
    · simp [neg_def, neg, h2]

theorem neg_ofExact (q : ℚ) (s : Bool) : -(ofExact q s) = ofExact (-q) (!s) := by
  unfold ofExact
  by_cases hq : q = 0
  · simp [hq, neg_zero']
  · rw [if_neg hq, if_neg (neg_ne_zero.mpr hq), neg_round hq]

theorem isNaN_of_isFinite {x : F32} (h : x.isFinite = true) : x.isNaN = false := by
  cases x <;> simp_all [isFinite, isNaN]

theorem isInf_of_isFinite {x : F32} (h : x.isFinite = true) : x.isInf = false := by
  cases x <;> simp_all [isFinite, isInf]

theorem eq_nan_of_isNaN {x : F32} (h : x.isNaN = true) : x = nan := by
  cases x <;> simp_all [isNaN]

/-- A sign change of the right factor changes the sign of the product. -/
theorem mul_neg (x y : F32) : x * -y = -(x * y) := by
  by_cases hx : x.isNaN = true
  · obtain rfl := eq_nan_of_isNaN hx
    simp [mul_def, mul, neg_def, neg, isNaN]
  by_cases hy : y.isNaN = true
  · obtain rfl := eq_nan_of_isNaN hy
    simp [mul_def, mul, neg_def, neg, isNaN]
  have hx0 : x.isNaN = false := by simpa using hx
  have hy0 : y.isNaN = false := by simpa using hy
  simp only [mul_def, mul, ← neg_def, isNaN_neg, isInf_neg, isZero_neg, sign_neg hy0, val_neg,
    hx0, hy0, Bool.or_self, Bool.false_eq_true, if_false]
  split_ifs with h1 h2
  · rfl
  · simp only [neg_def, neg]
    cases x.sign <;> cases y.sign <;> rfl
  · rw [neg_ofExact]
    congr 1
    · ring
    · cases x.sign <;> cases y.sign <;> rfl

/-- A sign change of the left factor changes the sign of the product. -/
theorem neg_mul (x y : F32) : -x * y = -(x * y) := by
  by_cases hx : x.isNaN = true
  · obtain rfl := eq_nan_of_isNaN hx
    simp [mul_def, mul, neg_def, neg, isNaN]
  by_cases hy : y.isNaN = true
  · obtain rfl := eq_nan_of_isNaN hy
    simp [mul_def, mul, neg_def, neg, isNaN]
  have hx0 : x.isNaN = false := by simpa using hx
  have hy0 : y.isNaN = false := by simpa using hy
  simp only [mul_def, mul, ← neg_def, isNaN_neg, isInf_neg, isZero_neg, sign_neg hx0, val_neg,
    hx0, hy0, Bool.or_self, Bool.false_eq_true, if_false]
  split_ifs with h1 h2
  · rfl
  · simp only [neg_def, neg]
    cases x.sign <;> cases y.sign <;> rfl
  · rw [neg_ofExact]
    congr 1
    · ring
    · cases x.sign <;> cases y.sign <;> rfl

/-- A sign change of the dividend changes the sign of the quotient. -/
theorem neg_div (x y : F32) : -x / y = -(x / y) := by
  by_cases hx : x.isNaN = true
  · obtain rfl := eq_nan_of_isNaN hx
    simp [div_def, div, neg_def, neg, isNaN]
  by_cases hy : y.isNaN = true
  · obtain rfl := eq_nan_of_isNaN hy
    simp [div_def, div, neg_def, neg, isNaN]
  have hx0 : x.isNaN = false := by simpa using hx
  have hy0 : y.isNaN = false := by simpa using hy
  simp only [div_def, div, ← neg_def, isNaN_neg, isInf_neg, isZero_neg, sign_neg hx0, val_neg,
    hx0, hy0, Bool.or_self, Bool.false_eq_true, if_false]
  split_ifs
  · rfl
  · simp only [neg_def, neg]
    cases x.sign <;> cases y.sign <;> rfl
  · rw [neg_zero']
    cases x.sign <;> cases y.sign <;> rfl
  · rfl
  · simp only [neg_def, neg]
    cases x.sign <;> cases y.sign <;> rfl
  · rw [neg_ofExact]
    congr 1
    · ring
    · cases x.sign <;> cases y.sign <;> rfl

/-- A sign change of the divisor changes the sign of the quotient. -/
theorem div_neg (x y : F32) : x / -y = -(x / y) := by
  by_cases hx : x.isNaN = true
  · obtain rfl := eq_nan_of_isNaN hx
    simp [div_def, div, neg_def, neg, isNaN]
  by_cases hy : y.isNaN = true
  · obtain rfl := eq_nan_of_isNaN hy
    simp [div_def, div, neg_def, neg, isNaN]
  have hx0 : x.isNaN = false := by simpa using hx
  have hy0 : y.isNaN = false := by simpa using hy
  simp only [div_def, div, ← neg_def, isNaN_neg, isInf_neg, isZero_neg, sign_neg hy0, val_neg,
    hx0, hy0, Bool.or_self, Bool.false_eq_true, if_false]
  split_ifs
  · rfl
  · simp only [neg_def, neg]
    cases x.sign <;> cases y.sign <;> rfl
  · rw [neg_zero']
    cases x.sign <;> cases y.sign <;> rfl
  · rfl
  · simp only [neg_def, neg]
    cases x.sign <;> cases y.sign <;> rfl
  · rw [neg_ofExact]
    congr 1
    · ring
    · cases x.sign <;> cases y.sign <;> rfl

/-- The comparison with zero does not see the sign. -/
theorem eq_neg_zero (x : F32) : eq (-x) 0 = eq x 0 := by
  cases x with
  | nan => rfl
  | inf s => cases s <;> rfl
  | negZero => simp [neg_def, neg, eq, le, ofNat_eq, val]
  | fin q =>
    by_cases hq : q = 0
    · simp [neg_def, neg, eq, le, ofNat_eq, val, hq]
    · simp only [neg_def, neg, hq, if_false, eq, le, ofNat_eq, val, Nat.cast_zero]
      rcases lt_or_gt_of_ne hq with h | h
      · simp [h.le, not_le.mpr h, not_le.mpr (neg_pos.mpr h), (neg_pos.mpr h).le]
      · simp [h.le, not_le.mpr h, not_le.mpr (neg_neg_of_pos h), (neg_neg_of_pos h).le]

end F32

namespace F32

theorem one_eq : (1 : F32) = fin 1 := by
  simp [ofNat_eq]

theorem zero_eq : (0 : F32) = fin 0 := by
  simp [ofNat_eq]

theorem isRep_abs_lt {q : ℚ} (h : IsRep q) : |q| < 2 ^ 128 := by
  obtain ⟨m, k, hm, -, hk, habs⟩ := h
  rw [habs]
  exact rep_lt hm hk

/-- A float is reproduced by rounding its own value. -/
theorem ofExact_val {x : F32} (hx : x.isFinite = true) (hf : x.IsFloat) :
    ofExact x.val x.sign = x := by
  cases x with
  | nan => simp [isFinite] at hx
  | inf s => simp [isFinite] at hx
  | negZero => simp [ofExact, val, sign, zero]
  | fin q =>
    by_cases hq : q = 0
    · simp [ofExact, val, sign, zero, hq]
    · simp only [ofExact, val, hq, if_false]
      exact round_of_rep hq hf

/-- Multiplication by the float 1 is exact. -/
theorem mul_one_eq {x : F32} (hf : x.IsFloat) : x * 1 = x := by
  cases x with
  | nan => rfl
  | inf s => cases s <;> simp [mul_def, mul, isNaN, isInf, isZero, sign, one_eq]
  | negZero => simp [mul_def, mul, isNaN, isInf, val, sign, one_eq, ofExact, zero]
  | fin q =>
    have h := ofExact_val (x := fin q) rfl hf
    have h1 : decide ((1 : ℚ) < 0) = false := by norm_num
    simp only [val, sign] at h
    simp only [mul_def, mul, isNaN, isInf, val, sign, one_eq, Bool.or_self, Bool.false_eq_true,
      if_false, mul_one, h1, Bool.bne_false]
    exact h

/-- Multiplication by the float -1 is the sign change. -/
theorem mul_neg_one_eq {x : F32} (hf : x.IsFloat) : x * -1 = -x := by
  rw [mul_neg, mul_one_eq hf]

theorem add_isFloat (x y : F32) (hx : x.IsFloat) (hy : y.IsFloat) : (x + y).IsFloat := by
  rw [add_def]
  unfold add
  split_ifs
  · trivial
  · trivial
  · exact hx
  · exact hy
  · exact ofExact_isFloat _ _

theorem neg_isFloat {x : F32} (hx : x.IsFloat) : (-x).IsFloat := by
  cases x with
  | nan => trivial
  | inf s => trivial
  | negZero => exact isRep_zero
  | fin q =>
    by_cases hq : q = 0
    · simp [neg_def, neg, hq, IsFloat]
    · simp only [neg_def, neg, hq, if_false]
      exact isRep_neg hx

theorem sub_isFloat (x y : F32) (hx : x.IsFloat) (hy : y.IsFloat) : (x - y).IsFloat := by
  rw [sub_def, ← neg_def, ← add_def]
  exact add_isFloat _ _ hx (neg_isFloat hy)

/-! ### Monotonicity -/

theorem le_of_finite {x y : F32} (hx : x.isFinite = true) (hy : y.isFinite = true) :
    le x y = decide (x.val ≤ y.val) := by
  cases x <;> cases y <;> simp_all [isFinite, le]

theorem le_inf_pos {x : F32} (hx : x.isNaN = false) : le x (inf false) = true := by
  cases x with
  | nan => simp [isNaN] at hx
  | inf s => cases s <;> rfl
  | negZero => rfl
  | fin q => rfl

theorem inf_neg_le {y : F32} (hy : y.isNaN = false) : le (inf true) y = true := by
  cases y with
  | nan => simp [isNaN] at hy
  | inf s => cases s <;> rfl
  | negZero => rfl
  | fin q => rfl

theorem isNaN_of_le_left {x y : F32} (h : le x y = true) : x.isNaN = false := by
  cases x <;> simp_all [le, isNaN]

theorem isNaN_of_le_right {x y : F32} (h : le x y = true) : y.isNaN = false := by
  cases x <;> cases y <;> simp_all [le, isNaN]

/-- The three shapes of a comparison that holds: the left side is minus
infinity, the right side is plus infinity, or both sides are finite. -/
theorem le_cases {x y : F32} (h : le x y = true) :
    x = inf true ∨ y = inf false
      ∨ (x.isFinite = true ∧ y.isFinite = true ∧ x.val ≤ y.val) := by
  cases x with
  | nan => simp [le] at h
  | inf s =>
    cases s
    · cases y with
      | nan => simp [le] at h
      | inf t => cases t <;> simp_all [le]
      | negZero => simp [le] at h
      | fin q => simp [le] at h
    · exact Or.inl rfl
  | negZero =>
    cases y with
    | nan => simp [le] at h
    | inf t => cases t <;> simp_all [le]
    | negZero => exact Or.inr (Or.inr ⟨rfl, rfl, le_rfl⟩)
    | fin q => exact Or.inr (Or.inr ⟨rfl, rfl, by simpa [le, val] using h⟩)
  | fin p =>
    cases y with
    | nan => simp [le] at h
    | inf t => cases t <;> simp_all [le]
    | negZero => exact Or.inr (Or.inr ⟨rfl, rfl, by simpa [le, val] using h⟩)
    | fin q => exact Or.inr (Or.inr ⟨rfl, rfl, by simpa [le, val] using h⟩)

theorem add_inf {x : F32} (hx : x.isFinite = true) (s : Bool) : x + inf s = inf s := by
  simp only [add_def, add, isNaN_of_isFinite hx, isInf_of_isFinite hx]
  rfl

theorem isNaN_add {x u : F32} (hx : x.isFinite = true) (hu : u.isNaN = false) :
    (x + u).isNaN = false := by
  cases u with
  | nan => simp [isNaN] at hu
  | inf s => rw [add_inf hx]; rfl
  | negZero => rw [add_finite hx (y := negZero) rfl]; exact isNaN_ofExact _ _
  | fin q => rw [add_finite hx (y := fin q) rfl]; exact isNaN_ofExact _ _

/-- Adding to a fixed finite number is monotone. -/
theorem add_le_add_left {x t u : F32} (hx : x.isFinite = true) (h : le t u = true) :
    le (x + t) (x + u) = true := by
  have htn := isNaN_of_le_left h
  have hun := isNaN_of_le_right h
  rcases le_cases h with rfl | rfl | ⟨ht, hu, hv⟩
  · rw [add_inf hx]
    exact inf_neg_le (isNaN_add hx hun)
  · rw [add_inf hx]
    exact le_inf_pos (isNaN_add hx htn)
  · rw [add_finite hx ht, add_finite hx hu]
    exact ofExact_le_ofExact (by linarith) _ _

theorem sign_of_pos {c : F32} (hc : c.isFinite = true) (hpos : 0 < c.val) : c.sign = false := by
  cases c with
  | nan => simp [isFinite] at hc
  | inf s => simp [isFinite] at hc
  | negZero => simp [val] at hpos
  | fin q => simpa [sign, val] using hpos.le

theorem isZero_of_pos {c : F32} (hc : c.isFinite = true) (hpos : 0 < c.val) :
    c.isZero = false := by
  cases c with
  | nan => simp [isFinite] at hc
  | inf s => simp [isFinite] at hc
  | negZero => simp [val] at hpos
  | fin q => simpa [isZero, val] using hpos.ne'

theorem inf_mul {c : F32} (hc : c.isFinite = true) (hpos : 0 < c.val) (s : Bool) :
    inf s * c = inf s := by
  simp only [mul_def, mul, isNaN_of_isFinite hc, isZero_of_pos hc hpos, sign_of_pos hc hpos]
  cases s <;> rfl

theorem isNaN_mul {x c : F32} (hx : x.isNaN = false) (hc : c.isFinite = true)
    (hpos : 0 < c.val) : (x * c).isNaN = false := by
  cases x with
  | nan => simp [isNaN] at hx
  | inf s => rw [inf_mul hc hpos]; rfl
  | negZero => rw [mul_finite (x := negZero) rfl hc]; exact isNaN_ofExact _ _
  | fin q => rw [mul_finite (x := fin q) rfl hc]; exact isNaN_ofExact _ _

/-- Multiplying by a fixed finite positive number is monotone. -/
theorem mul_le_mul_right {x y c : F32} (hc : c.isFinite = true) (hpos : 0 < c.val)
    (h : le x y = true) : le (x * c) (y * c) = true := by
  have hxn := isNaN_of_le_left h
  have hyn := isNaN_of_le_right h
  rcases le_cases h with rfl | rfl | ⟨hx, hy, hv⟩
  · rw [inf_mul hc hpos]
    exact inf_neg_le (isNaN_mul hyn hc hpos)
  · rw [inf_mul hc hpos]
    exact le_inf_pos (isNaN_mul hxn hc hpos)
  · rw [mul_finite hx hc, mul_finite hy hc]
    exact ofExact_le_ofExact (mul_le_mul_of_nonneg_right hv hpos.le) _ _

end F32

namespace F32

theorem neg_le_neg {x y : F32} (h : le x y = true) : le (-y) (-x) = true := by
  rcases le_cases h with rfl | rfl | ⟨hx, hy, hv⟩
  · have hyn := isNaN_of_le_right h
    exact le_inf_pos (by rw [isNaN_neg]; exact hyn)
  · have hxn := isNaN_of_le_left h
    exact inf_neg_le (by rw [isNaN_neg]; exact hxn)
  · rw [le_of_finite (by rw [isFinite_neg]; exact hy) (by rw [isFinite_neg]; exact hx),
      val_neg, val_neg]
    simpa using hv

theorem eq_fin_of_pos {c : F32} (hc : c.isFinite = true) (hpos : 0 < c.val) : c = fin c.val := by
  cases c with
  | nan => simp [isFinite] at hc
  | inf s => simp [isFinite] at hc
  | negZero => simp [val] at hpos
  | fin q => rfl

end F32

/-- For a finite positive float `PI2` the rotation is NaN or lies between
`-PI2` and `PI2`. -/
theorem CalculateRotation_range (M : FMath F32) (b : ACelestialBody F32) (θ : F32)
    (hfin : M.PI2.isFinite = true) (hpos : 0 < M.PI2.val) (hfl : M.PI2.IsFloat) :
    CalculateRotation M b θ = F32.nan
      ∨ (F32.le (-M.PI2) (CalculateRotation M b θ) = true
          ∧ F32.le (CalculateRotation M b θ) M.PI2 = true) := by
  have hsign := F32.sign_of_pos hfin hpos
  have hself : F32.ofExact M.PI2.val false = M.PI2 := by
    have := F32.ofExact_val hfin hfl
    rwa [hsign] at this
  have hnegself : F32.ofExact (-M.PI2.val) true = -M.PI2 := by
    have := F32.neg_ofExact M.PI2.val false
    rw [hself] at this
    exact this.symm
  have hrange : Fmod (b.m_OrbitPeriod * b.m_RotationScale * (θ / M.PI2)) 1 * M.PI2 = F32.nan
      ∨ (F32.le (-M.PI2) (Fmod (b.m_OrbitPeriod * b.m_RotationScale * (θ / M.PI2)) 1 * M.PI2)
            = true
          ∧ F32.le (Fmod (b.m_OrbitPeriod * b.m_RotationScale * (θ / M.PI2)) 1 * M.PI2) M.PI2
            = true) := by
    rcases Fmod_nan_or_range (b.m_OrbitPeriod * b.m_RotationScale * (θ / M.PI2)) isFinite_one
        (by rw [val_one]; norm_num) with hnan | ⟨hf, hlo, hhi⟩
    · left
      rw [hnan]
      rfl
    · right
      rw [val_one] at hlo hhi
      rw [F32.mul_finite hf hfin]
      constructor
      · rw [← hnegself]
        exact F32.ofExact_le_ofExact (by nlinarith) _ _
      · have h2 := F32.ofExact_le_ofExact
          (show (Fmod (b.m_OrbitPeriod * b.m_RotationScale * (θ / M.PI2)) 1).val * M.PI2.val
            ≤ M.PI2.val by nlinarith)
          ((Fmod (b.m_OrbitPeriod * b.m_RotationScale * (θ / M.PI2)) 1).sign != M.PI2.sign) false
        rwa [hself] at h2
  unfold CalculateRotation
  simp only
  split_ifs
  · exact hrange
  · rcases hrange with hnan | ⟨hlo, hhi⟩
    · left
      rw [hnan]
      rfl
    · right
      constructor
      · exact F32.neg_le_neg hhi
      · have := F32.neg_le_neg hlo
        rwa [F32.neg_neg_eq] at this

namespace F32

theorem isFinite_left_of_add {x y : F32} (h : (x + y).isFinite = true) : x.isFinite = true := by
  cases x with
  | nan => simp [add_def, add, isNaN, isFinite] at h
  | inf s =>
    exfalso
    cases y with
    | nan => simp [add_def, add, isNaN, isFinite] at h
    | inf t => cases s <;> cases t <;> simp [add_def, add, isNaN, isInf, sign, isFinite] at h
    | negZero => simp [add_def, add, isNaN, isInf, isFinite] at h
    | fin q => simp [add_def, add, isNaN, isInf, isFinite] at h
  | negZero => rfl
  | fin q => rfl

theorem isRep_val {x : F32} (hf : x.IsFloat) : IsRep x.val := by
  cases x with
  | nan => exact isRep_zero
  | inf s => exact isRep_zero
  | negZero => exact isRep_zero
  | fin q => exact hf

theorem val_ofExact_nonneg {q : ℚ} (hq : 0 ≤ q) (s : Bool) : 0 ≤ (ofExact q s).val := by
  unfold ofExact
  split_ifs with h0
  · rw [val_zero]
  · have hpos : 0 < q := lt_of_le_of_ne hq (Ne.symm h0)
    rw [round_pos hpos]
    split_ifs
    · simp [val]
    · exact roundMag_nonneg hq

theorem val_ofExact_nonpos {q : ℚ} (hq : q ≤ 0) (s : Bool) : (ofExact q s).val ≤ 0 := by
  unfold ofExact
  split_ifs with h0
  · rw [val_zero]
  · have hneg : q < 0 := lt_of_le_of_ne hq h0
    have hnn := roundMag_nonneg (a := -q) (by linarith)
    rw [round_neg hneg]
    split_ifs
    · simp [val]
    · simp [val]
    · simp only [val]; linarith

theorem zero_div_two : (0 : F32) / 2 = 0 := by
  simp only [ofNat_eq, Nat.cast_zero, Nat.cast_ofNat]
  rw [div_fin _ _ (by norm_num)]
  simp [ofExact, zero]

theorem isFinite_zero_lit : (0 : F32).isFinite = true := rfl

theorem val_zero_lit : (0 : F32).val = 0 := by
  simp [ofNat_eq, val]

/-- Adding a product with the float 0 leaves the value of a float unchanged. -/
theorem add_mul_zero {x d : F32} (hx : x.isFinite = true) (hf : x.IsFloat)
    (hd : d.isFinite = true) :
    (x + d * 0).isFinite = true ∧ (x + d * 0).val = x.val := by
  have hz : d * 0 = zero (d.sign != (0 : F32).sign) := by
    rw [mul_finite hd isFinite_zero_lit, val_zero_lit, mul_zero, ofExact_zero]
  rw [hz, add_finite hx (isFinite_zero _), val_zero, add_zero]
  by_cases hq : x.val = 0
  · rw [hq, ofExact_zero]
    exact ⟨isFinite_zero _, val_zero _⟩
  · unfold ofExact
    rw [if_neg hq, round_of_rep hq (isRep_val hf)]
    exact ⟨rfl, rfl⟩

theorem eq_ofExact (q : ℚ) (s t : Bool) : eq (ofExact q s) (ofExact q t) = true := by
  simp [eq, ofExact_le_ofExact le_rfl]

end F32

namespace F32

theorem ofExact_one (s : Bool) : ofExact 1 s = 1 := by
  rw [one_eq]
  exact ofExact_eval_pos _ 0 8388608 (-23) (by norm_num) (by norm_num) (by norm_num)
    (by norm_num [abs_lt]) (by norm_num) (by norm_num)

/-- A finite non-zero number divided by itself is the float 1. -/
theorem div_self_eq {x : F32} (hx : x.isFinite = true) (h0 : x.val ≠ 0) : x / x = 1 := by
  rw [div_finite hx hx h0, div_self h0, ofExact_one]

/-- Changing the sign of both dividend and divisor leaves the quotient. -/
theorem neg_div_neg (x y : F32) : -x / -y = x / y := by
  rw [neg_div, div_neg, neg_neg_eq]

end F32

namespace F32

/-- An exact result of at least `2 ^ 128` overflows to plus infinity. -/
theorem ofExact_overflow {q : ℚ} (s : Bool) (h : (2 : ℚ) ^ 128 ≤ q) :
    ofExact q s = inf false := by
  have hpos : (0 : ℚ) < 2 ^ 128 := by norm_num
  have hq : 0 < q := lt_of_lt_of_le hpos h
  have hfix : roundMag ((2 : ℚ) ^ 128) = 2 ^ 128 := by
    have := roundMag_of_rep (m := 1) (k := 128) (by norm_num) (by norm_num)
    norm_num at this ⊢
    exact this
  have hbig : (2 : ℚ) ^ 128 ≤ roundMag q := by
    have := roundMag_mono hpos h
    rwa [hfix] at this
  unfold ofExact
  rw [if_neg hq.ne', round_pos hq, if_pos hbig]

theorem add_fin_negZero (a : ℚ) :
    (fin a + negZero : F32) = ofExact (a + 0) (decide (a < 0) && true) := rfl

theorem mul_fin_negZero (a : ℚ) :
    (fin a * negZero : F32) = ofExact (a * 0) (decide (a < 0) != true) := rfl

end F32

theorem truncQ_of_nonneg {q : ℚ} (n : ℤ) (h0 : 0 ≤ q) (hlo : (n : ℚ) ≤ q) (hhi : q < n + 1) :
    truncQ q = n := by
  unfold truncQ
  rw [if_pos h0, Int.floor_eq_iff]
  exact ⟨hlo, hhi⟩

theorem truncQ_of_neg {q : ℚ} (n : ℤ) (h0 : q < 0) (hlo : (n : ℚ) - 1 < q) (hhi : q ≤ n) :
    truncQ q = n := by
  unfold truncQ
  rw [if_neg (not_le.mpr h0), Int.ceil_eq_iff]
  exact ⟨hlo, hhi⟩

/-- Evaluation of a remainder with a non-zero result from the truncated
quotient `n`. -/
theorem Fmod_eval {x y r : ℚ} (n : ℤ) (hy : y ≠ 0) (hn : truncQ (x / y) = n)
    (hr : r = x - (n : ℚ) * y) (hr0 : r ≠ 0) :
    Fmod (F32.fin x) (F32.fin y) = F32.fin r := by
  unfold Fmod
  simp only [F32.isNaN, F32.isInf, F32.isZero, F32.val, hy, decide_False, Bool.or_self,
    Bool.false_eq_true, if_false, hn]
  rw [← hr, if_neg hr0]

/-- Evaluation of a remainder that is zero. -/
theorem Fmod_eval_zero {x y : ℚ} (n : ℤ) (hy : y ≠ 0) (hn : truncQ (x / y) = n)
    (hr : x - (n : ℚ) * y = 0) :
    Fmod (F32.fin x) (F32.fin y) = F32.zero (decide (x < 0)) := by
  unfold Fmod
  simp only [F32.isNaN, F32.isInf, F32.isZero, F32.val, hy, decide_False, Bool.or_self,
    Bool.false_eq_true, if_false, hn, F32.sign]
  rw [if_pos hr]

/-! ## Facts about the example inputs -/

theorem F32.isFloat_ofNat (n : ℕ) (h : n < 2 ^ 24) : (OfNat.ofNat n : F32).IsFloat :=
  ⟨n, 0, h, by norm_num, by norm_num, by simp⟩

theorem F32.isFloat_of_rep (q : ℚ) (m : ℕ) (k : ℤ) (hm : m < 2 ^ 24) (hlo : -149 ≤ k)
    (hhi : k ≤ 104) (h : |q| = (m : ℚ) * 2 ^ k) : (F32.fin q).IsFloat :=
  ⟨m, k, hm, hlo, hhi, h⟩

theorem sample_Sin_zero : sampleMath.Sin 0 = 0 := by
  rw [F32.zero_eq]; exact sampleMath_Sin_zero

theorem sample_halfPI : sampleMath.PI / 2 = F32.fin (13176795 / 8388608) := by
  simp only [sampleMath_PI, F32.ofNat_eq, Nat.cast_ofNat]
  rw [F32.div_fin _ _ (by norm_num)]
  exact F32.ofExact_eval_pos _ 0 13176795 (-23) (by norm_num) (by norm_num) (by norm_num)
    (by norm_num [abs_lt]) (by norm_num) (by norm_num)

theorem sample_Sin_halfPI : sampleMath.Sin (sampleMath.PI / 2) = 1 := by
  rw [sample_halfPI, F32.one_eq]; exact sampleMath_Sin_halfPI

/-! ## Evaluating a rounding that falls half way between two floats -/

/-- A rational half way above the even integer `n` rounds down to `n`. -/
theorem roundHalfEven_tie_down {s : ℚ} {n : ℤ} (h : s - n = 1 / 2) (he : n % 2 = 0) :
    roundHalfEven s = n := by
  have hf : ⌊s⌋ = n := by
    rw [Int.floor_eq_iff]; constructor <;> linarith
  unfold roundHalfEven
  rw [hf, if_neg (by linarith), if_neg (by linarith), if_pos he]

/-- A rational half way below the even integer `n` rounds up to `n`. -/
theorem roundHalfEven_tie_up {s : ℚ} {n : ℤ} (h : n - s = 1 / 2) (he : n % 2 = 0) :
    roundHalfEven s = n := by
  have hf : ⌊s⌋ = n - 1 := by
    rw [Int.floor_eq_iff]; push_cast; constructor <;> linarith
  have ho : ¬ (n - 1) % 2 = 0 := by omega
  unfold roundHalfEven
  rw [hf]
  push_cast
  rw [if_neg (by linarith), if_neg (by linarith), if_neg ho]
  ring

theorem roundMag_eval_of {a : ℚ} (e n : ℤ) (hlo : (2 : ℚ) ^ e ≤ a) (hhi : a < 2 ^ (e + 1))
    (hn : roundHalfEven (a / 2 ^ (max e (-126) - 23)) = n) :
    roundMag a = (n : ℚ) * 2 ^ (max e (-126) - 23) := by
  have hlog := log_eq_of_bounds hlo hhi
  unfold roundMag ulpExp
  rw [hlog, hn]

namespace F32

/-- Evaluation of the rounding of a positive exact result, given the rounded
integer significand. -/
theorem ofExact_eval_pos_of {q r : ℚ} (s : Bool) (e n p : ℤ) (hp : p = max e (-126) - 23)
    (hlo : (2 : ℚ) ^ e ≤ q) (hhi : q < 2 ^ (e + 1))
    (hn : roundHalfEven (q / 2 ^ p) = n) (hfin : (n : ℚ) * 2 ^ p < 2 ^ 128)
    (hr : r = (n : ℚ) * 2 ^ p) :
    ofExact q s = fin r := by
  have hq : 0 < q := lt_of_lt_of_le (two_zpow_pos e) hlo
  subst hp
  have hm : roundMag q = (n : ℚ) * 2 ^ (max e (-126) - 23) := roundMag_eval_of e n hlo hhi hn
  unfold ofExact
  rw [if_neg hq.ne', round_pos hq, hm, if_neg (not_le.mpr hfin), hr]

/-- Evaluation of the rounding of a negative exact result, given the rounded
integer significand of its magnitude. -/
theorem ofExact_eval_neg_of {q r : ℚ} (s : Bool) (e n p : ℤ) (hp : p = max e (-126) - 23)
    (hlo : (2 : ℚ) ^ e ≤ -q) (hhi : -q < 2 ^ (e + 1))
    (hn : roundHalfEven (-q / 2 ^ p) = n) (hpos : 0 < n) (hfin : (n : ℚ) * 2 ^ p < 2 ^ 128)
    (hr : r = -((n : ℚ) * 2 ^ p)) :
    ofExact q s = fin r := by
  have hq : q < 0 := by linarith [lt_of_lt_of_le (two_zpow_pos e) hlo]
  subst hp
  have hm : roundMag (-q) = (n : ℚ) * 2 ^ (max e (-126) - 23) := roundMag_eval_of e n hlo hhi hn
  have hne : (n : ℚ) * 2 ^ (max e (-126) - 23) ≠ 0 :=
    mul_ne_zero (by exact_mod_cast hpos.ne') (two_zpow_pos _).ne'
  unfold ofExact
  rw [if_neg hq.ne, round_neg hq, hm, if_neg (not_le.mpr hfin), if_neg hne, hr]

end F32

namespace F32

theorem mul_isFloat (x y : F32) : (x * y).IsFloat := by
  rw [mul_def]
  unfold mul
  split_ifs
  · trivial
  · trivial
  · trivial
  · exact ofExact_isFloat _ _

/-- Single-precision multiplication is commutative. -/
theorem mul_comm_eq (x y : F32) : x * y = y * x := by
  rw [mul_def, mul_def]
  unfold mul
  rw [Bool.or_comm x.isNaN, Bool.or_comm x.isInf, Bool.or_comm x.isZero, mul_comm x.val,
    show (x.sign != y.sign) = (y.sign != x.sign) from Bool.xor_comm _ _]

/-- Multiplication by the float 1 on the left is exact. -/
theorem one_mul_eq {x : F32} (hf : x.IsFloat) : 1 * x = x := by
  rw [mul_comm_eq, mul_one_eq hf]

/-- Multiplication by the float -1 on the left is the sign change. -/
theorem neg_one_mul_eq {x : F32} (hf : x.IsFloat) : -1 * x = -x := by
  rw [mul_comm_eq, mul_neg_one_eq hf]

end F32

/-- A step with body movement enabled that ends a running transition
(`delay <= timer + delta`): `Move` returns, the flag is cleared, the timer is
the delay and the root component is placed at the blend of the start and the
target `t`, which is the value of `CalculatePosition` at the new angle. -/
theorem Move_transition_end (E : Engine) (b : ACelestialBody F32) (p : AttachParent F32)
    (c timeScale distanceScale delta : F32)
    (hroot : b.m_Root ≠ none) (hkm : F32.eq (kmPerDegree b distanceScale) 0 = false)
    (hmove : b.m_bMoveBody = true) (hcel : p.IsCelestialBody = false)
    (htr : b.m_bMoveBodyTransition = true)
    (hle : F32.le b.m_TransitionDelay (b.m_TransitionTimer + delta) = true) :
    ∃ s t, Move E b (some p) (some c) timeScale distanceScale delta = .returned s
      ∧ s.m_Angle = Fmod (b.m_Angle + angleIncrement b
          (CalculateVelocity E.toFMath b (GetAngleToCenter b * E.DEG_TO_RAD))
          timeScale distanceScale delta) 360
      ∧ CalculatePosition E.toFMath b (some p) (s.m_Angle * E.DEG_TO_RAD) c distanceScale
          = some t
      ∧ CalculatePosition E.toFMath s (some p) (s.m_Angle * E.DEG_TO_RAD) s.m_LastOffset
          distanceScale = some t
      ∧ s.m_bMoveBodyTransition = false
      ∧ s.m_TransitionTimer = b.m_TransitionDelay
      ∧ s.m_Root = some
          ⟨LerpVector b.m_TransitionPosStart t
              (E.Sin (b.m_TransitionDelay / b.m_TransitionDelay * E.PI / 2)),
            E.LerpRotator b.m_TransitionRotStart ⟨0, s.m_PlanetRotation, 0⟩
              (E.Sin (b.m_TransitionDelay / b.m_TransitionDelay * E.PI / 2))⟩ := by
  have hkm' : F32.eq (b.m_Perimeter * distanceScale * b.m_OrbitDistanceScale / 360) 0 = false :=
    hkm
  cases hr : b.m_Root with
  | none => exact absurd hr hroot
  | some r =>
    unfold Move
    simp only [hr]
    simp only [kmPerDegree, hkm', hmove, htr, hcel, hle, CalculatePosition,
      Bool.false_eq_true, if_false, if_true]
    exact ⟨_, _, rfl, rfl, rfl, rfl, rfl, rfl, rfl⟩

/-! # The claims -/

/-! ## C1: range of the angle after a step -/

/-- C1 (as stated, refuted): a body with angle 0 (in `[0, 360)`) that moves
one degree per unit of time has `kmPerDegree = 1`, and `Move` with
`timeScale = -1`, `distanceScale = 1`, `delta = 1` returns with the stored
angle `-1`, which is not in `[0, 360)`. -/
theorem C1_counterexample :
    unitSpeedBody.m_Angle = 0
      ∧ F32.eq (kmPerDegree unitSpeedBody 1) 0 = false
      ∧ ∃ s, Move sampleEngine unitSpeedBody (some originParent) (some 0) (F32.fin (-1)) 1 1
            = .returned s
          ∧ s.m_Angle = F32.fin (-1) ∧ F32.le 0 s.m_Angle = false := by
  have hroot : unitSpeedBody.m_Root ≠ none := by simp [unitSpeedBody, ACelestialBody.ctor]
  have hkm : F32.eq (kmPerDegree unitSpeedBody 1) 0 = false := by
    rw [kmPerDegree_unitSpeedBody]; exact eq_one_zero
  obtain ⟨s, hs, ha, -⟩ :=
    Move_returns sampleEngine unitSpeedBody originParent 0 (F32.fin (-1)) 1 1 hroot hkm
  have hval : s.m_Angle = F32.fin (-1) := by
    rw [ha, sampleEngine_toFMath, velocity_unitSpeedBody]
    have e1 : ((F32.fin 1) * (F32.fin 1) : F32) = F32.fin 1 := by
      rw [F32.mul_fin]
      exact F32.ofExact_eval_pos _ 0 8388608 (-23) (by norm_num) (by norm_num) (by norm_num)
        (by norm_num [abs_lt]) (by norm_num) (by norm_num)
    have e2 : ((F32.fin 1) * (F32.fin (-1)) : F32) = F32.fin (-1) := by
      rw [F32.mul_fin]
      exact F32.ofExact_eval_neg _ 0 8388608 (-23) (by norm_num) (by norm_num) (by norm_num)
        (by norm_num [abs_lt]) (by norm_num) (by norm_num) (by norm_num)
    have e3 : ((F32.fin (-1)) * (F32.fin 1) : F32) = F32.fin (-1) := by
      rw [F32.mul_fin]
      exact F32.ofExact_eval_neg _ 0 8388608 (-23) (by norm_num) (by norm_num) (by norm_num)
        (by norm_num [abs_lt]) (by norm_num) (by norm_num) (by norm_num)
    have e4 : ((F32.fin 360) * (F32.fin 1) : F32) = F32.fin 360 := by
      rw [F32.mul_fin]
      exact F32.ofExact_eval_pos _ 8 11796480 (-15) (by norm_num) (by norm_num) (by norm_num)
        (by norm_num [abs_lt]) (by norm_num) (by norm_num)
    have e5 : ((F32.fin 360) / (F32.fin 360) : F32) = F32.fin 1 := by
      rw [F32.div_fin _ _ (by norm_num)]
      exact F32.ofExact_eval_pos _ 0 8388608 (-23) (by norm_num) (by norm_num) (by norm_num)
        (by norm_num [abs_lt]) (by norm_num) (by norm_num)
    have e6 : ((F32.fin (-1)) / (F32.fin 1) : F32) = F32.fin (-1) := by
      rw [F32.div_fin _ _ (by norm_num)]
      exact F32.ofExact_eval_neg _ 0 8388608 (-23) (by norm_num) (by norm_num) (by norm_num)
        (by norm_num [abs_lt]) (by norm_num) (by norm_num) (by norm_num)
    have e7 : ((F32.fin 0) + (F32.fin (-1)) : F32) = F32.fin (-1) := by
      rw [F32.add_fin]
      exact F32.ofExact_eval_neg _ 0 8388608 (-23) (by norm_num) (by norm_num) (by norm_num)
        (by norm_num [abs_lt]) (by norm_num) (by norm_num) (by norm_num)
    have e8 : Fmod (F32.fin (-1)) (F32.fin 360) = F32.fin (-1) :=
      Fmod_eval 0 (by norm_num) (truncQ_of_neg 0 (by norm_num) (by norm_num) (by norm_num))
        (by norm_num) (by norm_num)
    simp only [angleIncrement, kmPerDegree, unitSpeedBody, ACelestialBody.ctor, F32.ofNat_eq, Nat.cast_ofNat, Nat.cast_one, Nat.cast_zero,
      e1, e2, e3, e4, e5, e6, e7, e8]
  refine ⟨rfl, hkm, s, hs, hval, ?_⟩
  rw [hval]
  norm_num [F32.le, F32.ofNat_eq, F32.val]

/-- C1 (amended): if the body has a root component, is attached to a parent,
the centre is given and the computed `kmPerDegree` is not 0, then `Move`
returns and the stored angle is NaN or a finite value strictly between -360
and 360; when the single-precision sum of the old angle and the increment is
finite and non-negative, the stored angle is finite and lies in `[0, 360)`. -/
theorem C1_angle_range (E : Engine) (b : ACelestialBody F32) (p : AttachParent F32)
    (c timeScale distanceScale delta : F32)
    (hroot : b.m_Root ≠ none) (hkm : F32.eq (kmPerDegree b distanceScale) 0 = false) :
    ∃ s, Move E b (some p) (some c) timeScale distanceScale delta = .returned s
      ∧ (s.m_Angle = F32.nan
          ∨ (s.m_Angle.isFinite = true ∧ -360 < s.m_Angle.val ∧ s.m_Angle.val < 360))
      ∧ ((b.m_Angle + angleIncrement b
              (CalculateVelocity E.toFMath b (GetAngleToCenter b * E.DEG_TO_RAD))
              timeScale distanceScale delta).isFinite = true →
          0 ≤ (b.m_Angle + angleIncrement b
              (CalculateVelocity E.toFMath b (GetAngleToCenter b * E.DEG_TO_RAD))
              timeScale distanceScale delta).val →
          s.m_Angle.isFinite = true ∧ 0 ≤ s.m_Angle.val ∧ s.m_Angle.val < 360) := by
  obtain ⟨s, hs, ha, -⟩ := Move_returns E b p c timeScale distanceScale delta hroot hkm
  refine ⟨s, hs, ?_, ?_⟩
  · rw [ha]
    have h := Fmod_nan_or_range (b.m_Angle + angleIncrement b
      (CalculateVelocity E.toFMath b (GetAngleToCenter b * E.DEG_TO_RAD))
      timeScale distanceScale delta) isFinite_360 (by rw [val_360]; norm_num)
    rw [val_360] at h
    exact h
  · intro hfin hnn
    rw [ha]
    have h := Fmod_of_nonneg hfin hnn isFinite_360 (by rw [val_360]; norm_num)
    rw [val_360] at h
    exact h

/-- C1 (amended), instance: the body that moves one degree per unit of time,
with `timeScale = distanceScale = delta = 1`. -/
theorem C1_angle_range_witness :
    ∃ s, Move sampleEngine unitSpeedBody (some originParent) (some 0) 1 1 1 = .returned s
      ∧ (s.m_Angle = F32.nan
          ∨ (s.m_Angle.isFinite = true ∧ -360 < s.m_Angle.val ∧ s.m_Angle.val < 360))
      ∧ ((unitSpeedBody.m_Angle + angleIncrement unitSpeedBody
              (CalculateVelocity sampleEngine.toFMath unitSpeedBody
                (GetAngleToCenter unitSpeedBody * sampleEngine.DEG_TO_RAD))
              1 1 1).isFinite = true →
          0 ≤ (unitSpeedBody.m_Angle + angleIncrement unitSpeedBody
              (CalculateVelocity sampleEngine.toFMath unitSpeedBody
                (GetAngleToCenter unitSpeedBody * sampleEngine.DEG_TO_RAD))
              1 1 1).val →
          s.m_Angle.isFinite = true ∧ 0 ≤ s.m_Angle.val ∧ s.m_Angle.val < 360) :=
  C1_angle_range sampleEngine unitSpeedBody originParent 0 1 1 1
    (by simp [unitSpeedBody, ACelestialBody.ctor])
    (by rw [kmPerDegree_unitSpeedBody]; exact eq_one_zero)

/-! ## C2: distance at the two apsides -/

/-- C5 (as stated, refuted): with `minSpeed = 1 ≤ maxSpeed = 3` and velocity
scale 1, the velocity at angle 0 (perihelion) is 1 and the velocity at angle
`PI` (aphelion) is 3: the velocity at perihelion is not greater than or equal
to the velocity at aphelion. -/
theorem C5_counterexample :
    F32.le (speedBody 1 3).m_MinSpeed (speedBody 1 3).m_MaxSpeed = true
      ∧ (speedBody 1 3).m_VelocityScale = 1
      ∧ CalculateVelocity sampleMath (speedBody 1 3) 0 = 1
      ∧ CalculateVelocity sampleMath (speedBody 1 3) sampleMath.PI = 3
      ∧ F32.le (CalculateVelocity sampleMath (speedBody 1 3) sampleMath.PI)
          (CalculateVelocity sampleMath (speedBody 1 3) 0) = false := by
  have hpi : sampleMath.PI / 2 = F32.fin (13176795 / 8388608) := sample_halfPI
  have e1 : ((F32.fin 0) / (F32.fin 2) : F32) = F32.fin 0 := by
    rw [F32.div_fin _ _ (by norm_num)]
    norm_num [F32.ofExact, F32.zero]
  have e2 : ((F32.fin 3) - (F32.fin 1) : F32) = F32.fin 2 := by
    rw [F32.sub_fin _ _ (by norm_num)]
    exact F32.ofExact_eval_pos _ 1 8388608 (-22) (by norm_num) (by norm_num) (by norm_num)
      (by norm_num [abs_lt]) (by norm_num) (by norm_num)
  have e3 : ((F32.fin 2) * (F32.fin 0) : F32) = F32.fin 0 := by
    rw [F32.mul_fin]
    norm_num [F32.ofExact, F32.zero]
  have e4 : ((F32.fin 1) + (F32.fin 0) : F32) = F32.fin 1 := by
    rw [F32.add_fin]
    exact F32.ofExact_eval_pos _ 0 8388608 (-23) (by norm_num) (by norm_num) (by norm_num)
      (by norm_num [abs_lt]) (by norm_num) (by norm_num)
  have e5 : ((F32.fin 1) * (F32.fin 1) : F32) = F32.fin 1 := by
    rw [F32.mul_fin]
    exact F32.ofExact_eval_pos _ 0 8388608 (-23) (by norm_num) (by norm_num) (by norm_num)
      (by norm_num [abs_lt]) (by norm_num) (by norm_num)
  have e6 : ((F32.fin 2) * (F32.fin 1) : F32) = F32.fin 2 := by
    rw [F32.mul_fin]
    exact F32.ofExact_eval_pos _ 1 8388608 (-22) (by norm_num) (by norm_num) (by norm_num)
      (by norm_num [abs_lt]) (by norm_num) (by norm_num)
  have e7 : ((F32.fin 1) + (F32.fin 2) : F32) = F32.fin 3 := by
    rw [F32.add_fin]
    exact F32.ofExact_eval_pos _ 1 12582912 (-22) (by norm_num) (by norm_num) (by norm_num)
      (by norm_num [abs_lt]) (by norm_num) (by norm_num)
  have e8 : ((F32.fin 3) * (F32.fin 1) : F32) = F32.fin 3 := by
    rw [F32.mul_fin]
    exact F32.ofExact_eval_pos _ 1 12582912 (-22) (by norm_num) (by norm_num) (by norm_num)
      (by norm_num [abs_lt]) (by norm_num) (by norm_num)
  have h0 : CalculateVelocity sampleMath (speedBody 1 3) 0 = 1 := by
    simp only [CalculateVelocity, speedBody, ACelestialBody.ctor, F32.ofNat_eq, Nat.cast_ofNat, Nat.cast_one, Nat.cast_zero,
      sampleMath_Sin_zero, e1, e2, e3, e4, e5, e6, e7, e8]
  have h1 : CalculateVelocity sampleMath (speedBody 1 3) sampleMath.PI = 3 := by
    rw [CalculateVelocity, hpi]
    simp only [speedBody, ACelestialBody.ctor, F32.ofNat_eq, Nat.cast_ofNat, Nat.cast_one, Nat.cast_zero,
      sampleMath_Sin_halfPI, e1, e2, e3, e4, e5, e6, e7, e8]
  refine ⟨?_, rfl, h0, h1, ?_⟩
  · norm_num [speedBody, F32.le, F32.ofNat_eq, F32.val]
  · rw [h0, h1]
    norm_num [F32.le, F32.ofNat_eq, F32.val]

/-- C5 (amended): when the sine of the library is 0 at 0 and 1 at `PI / 2`,
the minimum speed and the velocity scale are finite, the velocity scale is
positive and `maxSpeed - minSpeed` does not overflow, the velocity at angle 0
is at most the velocity at angle `PI` if `minSpeed ≤ maxSpeed`, and at least
the velocity at angle `PI` if `maxSpeed ≤ minSpeed`. -/
theorem C5_velocity_at_apsides (M : FMath F32) (b : ACelestialBody F32)
    (hsin0 : M.Sin 0 = 0) (hsinpi : M.Sin (M.PI / 2) = 1)
    (hmin : b.m_MinSpeed.isFinite = true)
    (hd : (b.m_MaxSpeed - b.m_MinSpeed).isFinite = true)
    (hvs : b.m_VelocityScale.isFinite = true) (hpos : 0 < b.m_VelocityScale.val) :
    (F32.le b.m_MinSpeed b.m_MaxSpeed = true →
        F32.le (CalculateVelocity M b 0) (CalculateVelocity M b M.PI) = true)
      ∧ (F32.le b.m_MaxSpeed b.m_MinSpeed = true →
        F32.le (CalculateVelocity M b M.PI) (CalculateVelocity M b 0) = true) := by
  have hmax : b.m_MaxSpeed.isFinite = true := F32.isFinite_left_of_add hd
  have hnmin : (-b.m_MinSpeed).isFinite = true := by rw [F32.isFinite_neg]; exact hmin
  have hdval : b.m_MaxSpeed - b.m_MinSpeed
      = F32.ofExact (b.m_MaxSpeed.val - b.m_MinSpeed.val)
          (b.m_MaxSpeed.sign && (-b.m_MinSpeed).sign) := by
    rw [F32.sub_def, ← F32.neg_def, ← F32.add_def, F32.add_finite hmax hnmin, F32.val_neg,
      sub_eq_add_neg]
  have hz : (b.m_MaxSpeed - b.m_MinSpeed) * 0
      = F32.ofExact ((b.m_MaxSpeed - b.m_MinSpeed).val * 0)
          ((b.m_MaxSpeed - b.m_MinSpeed).sign != (0 : F32).sign) := by
    rw [F32.mul_finite hd F32.isFinite_zero_lit, F32.val_zero_lit]
  have ht : (b.m_MaxSpeed - b.m_MinSpeed) * 1
      = F32.ofExact ((b.m_MaxSpeed - b.m_MinSpeed).val * 1)
          ((b.m_MaxSpeed - b.m_MinSpeed).sign != (1 : F32).sign) := by
    rw [F32.mul_finite hd isFinite_one, val_one]
  unfold CalculateVelocity
  rw [F32.zero_div_two, hsin0, hsinpi]
  constructor
  · intro hle
    have hv : b.m_MinSpeed.val ≤ b.m_MaxSpeed.val := by
      have := F32.le_of_finite hmin hmax
      rw [hle] at this
      exact of_decide_eq_true this.symm
    have hdnn : 0 ≤ (b.m_MaxSpeed - b.m_MinSpeed).val := by
      rw [hdval]
      exact F32.val_ofExact_nonneg (by linarith) _
    apply F32.mul_le_mul_right hvs hpos
    apply F32.add_le_add_left hmin
    rw [hz, ht]
    exact F32.ofExact_le_ofExact (by linarith) _ _
  · intro hle
    have hv : b.m_MaxSpeed.val ≤ b.m_MinSpeed.val := by
      have := F32.le_of_finite hmax hmin
      rw [hle] at this
      exact of_decide_eq_true this.symm
    have hdnp : (b.m_MaxSpeed - b.m_MinSpeed).val ≤ 0 := by
      rw [hdval]
      exact F32.val_ofExact_nonpos (by linarith) _
    apply F32.mul_le_mul_right hvs hpos
    apply F32.add_le_add_left hmin
    rw [hz, ht]
    exact F32.ofExact_le_ofExact (by linarith) _ _

/-- C5 (amended), instance: `minSpeed = 1`, `maxSpeed = 3`, velocity scale 1. -/
theorem C5_velocity_at_apsides_witness :
    F32.le (speedBody 1 3).m_MinSpeed (speedBody 1 3).m_MaxSpeed = true
      ∧ F32.le (CalculateVelocity sampleMath (speedBody 1 3) 0)
          (CalculateVelocity sampleMath (speedBody 1 3) sampleMath.PI) = true := by
  have hle : F32.le (speedBody 1 3).m_MinSpeed (speedBody 1 3).m_MaxSpeed = true := by
    norm_num [speedBody, F32.le, F32.ofNat_eq, F32.val]
  have hd : ((speedBody 1 3).m_MaxSpeed - (speedBody 1 3).m_MinSpeed).isFinite = true := by
    have e1 : ((F32.fin 3) - (F32.fin 1) : F32) = F32.fin 2 := by
      rw [F32.sub_fin _ _ (by norm_num)]
      exact F32.ofExact_eval_pos _ 1 8388608 (-22) (by norm_num) (by norm_num) (by norm_num)
        (by norm_num [abs_lt]) (by norm_num) (by norm_num)
    simp only [speedBody, F32.ofNat_eq, Nat.cast_ofNat, Nat.cast_one, Nat.cast_zero, e1]
    rfl
  exact ⟨hle, (C5_velocity_at_apsides sampleMath (speedBody 1 3) sample_Sin_zero
    sample_Sin_halfPI rfl hd rfl (by norm_num [speedBody, ACelestialBody.ctor, F32.ofNat_eq,
      F32.val])).1 hle⟩

/-! ## C6: speed values at angle 0 and `PI` -/

/-- C6 (as stated, refuted): with `minSpeed = 0.3` (the float `5033165 / 2^24`),
`maxSpeed = 1.85` (the float `15518925 / 2^23`) and velocity scale 1,
`CalculateVelocity` at angle `PI` returns `3879731 / 2^21 = 1.84999990`, not
`maxSpeed * velocityScale = 1.85`. -/
theorem C6_counterexample :
    CalculateVelocity sampleMath
        (speedBody (F32.fin (5033165 / 16777216)) (F32.fin (15518925 / 8388608))) sampleMath.PI
        = F32.fin (3879731 / 2097152)
      ∧ (speedBody (F32.fin (5033165 / 16777216)) (F32.fin (15518925 / 8388608))).m_MaxSpeed
          * (speedBody (F32.fin (5033165 / 16777216))
              (F32.fin (15518925 / 8388608))).m_VelocityScale
        = F32.fin (15518925 / 8388608)
      ∧ F32.eq (CalculateVelocity sampleMath
          (speedBody (F32.fin (5033165 / 16777216)) (F32.fin (15518925 / 8388608)))
          sampleMath.PI)
        ((speedBody (F32.fin (5033165 / 16777216)) (F32.fin (15518925 / 8388608))).m_MaxSpeed
          * (speedBody (F32.fin (5033165 / 16777216))
              (F32.fin (15518925 / 8388608))).m_VelocityScale) = false := by
  have hpi : sampleMath.PI / 2 = F32.fin (13176795 / 8388608) := sample_halfPI
  have e1 : ((F32.fin (15518925 / 8388608)) - (F32.fin (5033165 / 16777216)) : F32) = F32.fin (6501171 / 4194304) := by
    rw [F32.sub_fin _ _ (by norm_num)]
    exact F32.ofExact_eval_pos_of _ 0 13002342 (-23) (by norm_num) (by norm_num) (by norm_num)
      (roundHalfEven_tie_down (by norm_num) (by norm_num)) (by norm_num) (by norm_num)
  have e2 : ((F32.fin (6501171 / 4194304)) * (F32.fin 1) : F32) = F32.fin (6501171 / 4194304) := by
    rw [F32.mul_fin]
    exact F32.ofExact_eval_pos _ 0 13002342 (-23) (by norm_num) (by norm_num) (by norm_num)
      (by norm_num [abs_lt]) (by norm_num) (by norm_num)
  have e3 : ((F32.fin (5033165 / 16777216)) + (F32.fin (6501171 / 4194304)) : F32) = F32.fin (3879731 / 2097152) := by
    rw [F32.add_fin]
    exact F32.ofExact_eval_pos_of _ 0 15518924 (-23) (by norm_num) (by norm_num) (by norm_num)
      (roundHalfEven_tie_down (by norm_num) (by norm_num)) (by norm_num) (by norm_num)
  have e4 : ((F32.fin (3879731 / 2097152)) * (F32.fin 1) : F32) = F32.fin (3879731 / 2097152) := by
    rw [F32.mul_fin]
    exact F32.ofExact_eval_pos _ 0 15518924 (-23) (by norm_num) (by norm_num) (by norm_num)
      (by norm_num [abs_lt]) (by norm_num) (by norm_num)
  have e5 : ((F32.fin (15518925 / 8388608)) * (F32.fin 1) : F32) = F32.fin (15518925 / 8388608) := by
    rw [F32.mul_fin]
    exact F32.ofExact_eval_pos _ 0 15518925 (-23) (by norm_num) (by norm_num) (by norm_num)
      (by norm_num [abs_lt]) (by norm_num) (by norm_num)
  have h1 : CalculateVelocity sampleMath
      (speedBody (F32.fin (5033165 / 16777216)) (F32.fin (15518925 / 8388608))) sampleMath.PI
      = F32.fin (3879731 / 2097152) := by
    rw [CalculateVelocity, hpi]
    simp only [speedBody, ACelestialBody.ctor, F32.ofNat_eq, Nat.cast_ofNat, Nat.cast_one, Nat.cast_zero,
      sampleMath_Sin_halfPI, e1, e2, e3, e4, e5]
  have h2 : (speedBody (F32.fin (5033165 / 16777216)) (F32.fin (15518925 / 8388608))).m_MaxSpeed
      * (speedBody (F32.fin (5033165 / 16777216))
          (F32.fin (15518925 / 8388608))).m_VelocityScale
      = F32.fin (15518925 / 8388608) := by
    simp only [speedBody, ACelestialBody.ctor, F32.ofNat_eq, Nat.cast_ofNat, Nat.cast_one, Nat.cast_zero, e1, e2, e3, e4, e5]
  refine ⟨h1, h2, ?_⟩
  rw [h1, h2]
  norm_num [F32.eq, F32.le, F32.val]

/-- C6 (amended): when the sine of the library is 0 at 0 and 1 at `PI / 2`,
the speeds are floats, the minimum speed and the velocity scale are finite and
`maxSpeed - minSpeed` does not overflow, `CalculateVelocity` at angle 0 compares
equal to the single-precision product `minSpeed * velocityScale`, and at angle
`PI` it returns the single-precision value of
`(minSpeed + (maxSpeed - minSpeed)) * velocityScale`. -/
theorem C6_velocity_values (M : FMath F32) (b : ACelestialBody F32)
    (hsin0 : M.Sin 0 = 0) (hsinpi : M.Sin (M.PI / 2) = 1)
    (hmin : b.m_MinSpeed.isFinite = true) (hminf : b.m_MinSpeed.IsFloat)
    (hmaxf : b.m_MaxSpeed.IsFloat)
    (hd : (b.m_MaxSpeed - b.m_MinSpeed).isFinite = true)
    (hvs : b.m_VelocityScale.isFinite = true) :
    F32.eq (CalculateVelocity M b 0) (b.m_MinSpeed * b.m_VelocityScale) = true
      ∧ CalculateVelocity M b M.PI
          = (b.m_MinSpeed + (b.m_MaxSpeed - b.m_MinSpeed)) * b.m_VelocityScale := by
  unfold CalculateVelocity
  rw [F32.zero_div_two, hsin0, hsinpi, F32.mul_one_eq (F32.sub_isFloat _ _ hmaxf hminf)]
  refine ⟨?_, rfl⟩
  obtain ⟨hf, hval⟩ := F32.add_mul_zero hmin hminf hd
  rw [F32.mul_finite hf hvs, F32.mul_finite hmin hvs, hval]
  exact F32.eq_ofExact _ _ _

/-- C6 (amended), instance: the spec's example `minSpeed = 1`, `maxSpeed = 3`,
velocity scale 1, for which the velocity at angle `PI` is 3 and the velocity
at angle 0 compares equal to 1. -/
theorem C6_velocity_values_witness :
    F32.eq (CalculateVelocity sampleMath (speedBody 1 3) 0) (F32.fin 1) = true
      ∧ CalculateVelocity sampleMath (speedBody 1 3) sampleMath.PI = F32.fin 3 := by
  have e1 : ((F32.fin 3) - (F32.fin 1) : F32) = F32.fin 2 := by
    rw [F32.sub_fin _ _ (by norm_num)]
    exact F32.ofExact_eval_pos _ 1 8388608 (-22) (by norm_num) (by norm_num) (by norm_num)
      (by norm_num [abs_lt]) (by norm_num) (by norm_num)
  have e2 : ((F32.fin 1) + (F32.fin 2) : F32) = F32.fin 3 := by
    rw [F32.add_fin]
    exact F32.ofExact_eval_pos _ 1 12582912 (-22) (by norm_num) (by norm_num) (by norm_num)
      (by norm_num [abs_lt]) (by norm_num) (by norm_num)
  have e3 : ((F32.fin 3) * (F32.fin 1) : F32) = F32.fin 3 := by
    rw [F32.mul_fin]
    exact F32.ofExact_eval_pos _ 1 12582912 (-22) (by norm_num) (by norm_num) (by norm_num)
      (by norm_num [abs_lt]) (by norm_num) (by norm_num)
  have e4 : ((F32.fin 1) * (F32.fin 1) : F32) = F32.fin 1 := by
    rw [F32.mul_fin]
    exact F32.ofExact_eval_pos _ 0 8388608 (-23) (by norm_num) (by norm_num) (by norm_num)
      (by norm_num [abs_lt]) (by norm_num) (by norm_num)
  have hd : ((speedBody 1 3).m_MaxSpeed - (speedBody 1 3).m_MinSpeed).isFinite = true := by
    simp only [speedBody, F32.ofNat_eq, Nat.cast_ofNat, Nat.cast_one, Nat.cast_zero, e1, e2, e3, e4]
    rfl
  have h := C6_velocity_values sampleMath (speedBody 1 3) sample_Sin_zero sample_Sin_halfPI
    rfl (F32.isFloat_ofNat 1 (by norm_num)) (F32.isFloat_ofNat 3 (by norm_num)) hd rfl
  have hm : (speedBody 1 3).m_MinSpeed * (speedBody 1 3).m_VelocityScale = F32.fin 1 := by
    simp only [speedBody, ACelestialBody.ctor, F32.ofNat_eq, Nat.cast_ofNat, Nat.cast_one, Nat.cast_zero, e1, e2, e3, e4]
  have hv : ((speedBody 1 3).m_MinSpeed
      + ((speedBody 1 3).m_MaxSpeed - (speedBody 1 3).m_MinSpeed))
        * (speedBody 1 3).m_VelocityScale = F32.fin 3 := by
    simp only [speedBody, ACelestialBody.ctor, F32.ofNat_eq, Nat.cast_ofNat, Nat.cast_one, Nat.cast_zero, e1, e2, e3, e4]
  rw [← hm, ← hv]
  exact h

/-! ## C7: the semi-minor axis is at most the semi-major axis -/

/-- C7: for eccentricity in `[0, 1)` and a positive semi-major axis `a`, the
semi-minor axis `a * sqrt(1 - e^2)` stored by `CalculateSemiMinorAxis` is at
most `a`, and equals `a` exactly when the eccentricity is 0. -/
theorem C7_semi_minor_le_semi_major (b : ACelestialBody ℝ)
    (he0 : 0 ≤ b.m_Eccentricity) (he1 : b.m_Eccentricity < 1) (ha : 0 < b.m_SemiMajorAxis) :
    (CalculateSemiMinorAxis FMath.real b).m_SemiMinorAxis
        = b.m_SemiMajorAxis * Real.sqrt (1 - b.m_Eccentricity ^ 2)
      ∧ (CalculateSemiMinorAxis FMath.real b).m_SemiMinorAxis ≤ b.m_SemiMajorAxis
      ∧ ((CalculateSemiMinorAxis FMath.real b).m_SemiMinorAxis = b.m_SemiMajorAxis
          ↔ b.m_Eccentricity = 0) := by
  have hdom : 0 ≤ 1 - b.m_Eccentricity ^ 2 := by nlinarith
  have hsq : 1 - b.m_Eccentricity ^ 2 ≤ 1 := by nlinarith [sq_nonneg b.m_Eccentricity]
  have hle : Real.sqrt (1 - b.m_Eccentricity ^ 2) ≤ 1 := Real.sqrt_le_one.mpr hsq
  refine ⟨rfl, ?_, ?_⟩
  · show b.m_SemiMajorAxis * Real.sqrt (1 - b.m_Eccentricity ^ 2) ≤ b.m_SemiMajorAxis
    nlinarith
  · show b.m_SemiMajorAxis * Real.sqrt (1 - b.m_Eccentricity ^ 2) = b.m_SemiMajorAxis
      ↔ b.m_Eccentricity = 0
    constructor
    · intro h
      have h1 : Real.sqrt (1 - b.m_Eccentricity ^ 2) = 1 := by
        have := mul_left_cancel₀ ha.ne' (h.trans (mul_one _).symm)
        exact this
      rw [Real.sqrt_eq_iff_mul_self_eq hdom zero_le_one] at h1
      have h2 : b.m_Eccentricity ^ 2 = 0 := by linarith
      exact pow_eq_zero_iff (by norm_num) |>.mp h2
    · intro h
      rw [h]
      norm_num

/-- C7, instance: `a = 10`, `e = 1/2`. -/
theorem C7_semi_minor_le_semi_major_witness :
    (CalculateSemiMinorAxis FMath.real (orbitBody 10 (1 / 2))).m_SemiMinorAxis
        = (orbitBody 10 (1 / 2) : ACelestialBody ℝ).m_SemiMajorAxis
            * Real.sqrt (1 - (orbitBody 10 (1 / 2) : ACelestialBody ℝ).m_Eccentricity ^ 2)
      ∧ (CalculateSemiMinorAxis FMath.real (orbitBody 10 (1 / 2))).m_SemiMinorAxis
          ≤ (orbitBody 10 (1 / 2) : ACelestialBody ℝ).m_SemiMajorAxis
      ∧ ((CalculateSemiMinorAxis FMath.real (orbitBody 10 (1 / 2))).m_SemiMinorAxis
            = (orbitBody 10 (1 / 2) : ACelestialBody ℝ).m_SemiMajorAxis
          ↔ (orbitBody 10 (1 / 2) : ACelestialBody ℝ).m_Eccentricity = 0) :=
  C7_semi_minor_le_semi_major (orbitBody 10 (1 / 2))
    (by norm_num [orbitBody]) (by norm_num [orbitBody]) (by norm_num [orbitBody])

/-! ## C8: the transition blend -/

/-- C8 (as stated, refuted): a body in a transition that started at `X = 12.3`
(delay 1, timer 0), below a parent at `X = -0.7`, makes a step with
`delta = 1`.  The step ends the transition (`timer + delta >= delay`), the
blend factor `sin(timer / delay * PI / 2)` is 1 and the target position has
`X = -0.7` (the float `-11744051 / 2^24`), but the body is placed at
`X = -734003 / 2^20 = -0.699999809`, not at the target: `Lerp` computes
`12.3 + 1 * (-0.7 - 12.3)` in single precision. -/
theorem C8_counterexample :
    blendBody.m_bMoveBody = true ∧ blendBody.m_bMoveBodyTransition = true
      ∧ F32.le blendBody.m_TransitionDelay (blendBody.m_TransitionTimer + 1) = true
      ∧ ∃ s t r, Move sampleEngine blendBody (some blendParent) (some 0) 1 1 1 = .returned s
          ∧ CalculatePosition sampleMath s (some blendParent)
              (s.m_Angle * sampleMath.DEG_TO_RAD) s.m_LastOffset 1 = some t
          ∧ s.m_bMoveBodyTransition = false
          ∧ s.m_TransitionTimer = blendBody.m_TransitionDelay
          ∧ sampleMath.Sin (s.m_TransitionTimer / blendBody.m_TransitionDelay
              * sampleMath.PI / 2) = 1
          ∧ s.m_Root = some r
          ∧ t.X = F32.fin (-(11744051 / 16777216))
          ∧ r.WorldLocation.X = F32.fin (-(734003 / 1048576))
          ∧ r.WorldLocation.X ≠ t.X := by
  have e1 : ((F32.fin 360) * (F32.fin 1) : F32) = F32.fin 360 := by
    rw [F32.mul_fin]
    exact F32.ofExact_eval_pos _ 8 11796480 (-15) (by norm_num) (by norm_num) (by norm_num)
      (by norm_num [abs_lt]) (by norm_num) (by norm_num)
  have e2 : ((F32.fin 360) / (F32.fin 360) : F32) = F32.fin 1 := by
    rw [F32.div_fin _ _ (by norm_num)]
    exact F32.ofExact_eval_pos _ 0 8388608 (-23) (by norm_num) (by norm_num) (by norm_num)
      (by norm_num [abs_lt]) (by norm_num) (by norm_num)
  have e3 : F32.eq (F32.fin 1) (F32.fin 0) = false := by
    norm_num [F32.eq, F32.le, F32.val]
  have e4 : ((F32.fin 0) + (F32.fin 1) : F32) = F32.fin 1 := by
    rw [F32.add_fin]
    exact F32.ofExact_eval_pos _ 0 8388608 (-23) (by norm_num) (by norm_num) (by norm_num)
      (by norm_num [abs_lt]) (by norm_num) (by norm_num)
  have e5 : F32.le (F32.fin 1) (F32.fin 1) = true := by
    norm_num [F32.le, F32.val]
  have e6 : ((F32.fin 0) * (F32.fin (9370165 / 536870912)) : F32) = F32.fin 0 := by
    rw [F32.mul_fin]
    norm_num [F32.ofExact, F32.zero]
  have e7 : ((F32.fin 0) / (F32.fin 2) : F32) = F32.fin 0 := by
    rw [F32.div_fin _ _ (by norm_num)]
    norm_num [F32.ofExact, F32.zero]
  have e8 : ((F32.fin 0) - (F32.fin 0) : F32) = F32.fin 0 := by
    norm_num [F32.add_def, F32.add, F32.mul_def, F32.mul, F32.div_def, F32.div, F32.sub_def,
      F32.neg_def, F32.neg, F32.isNaN, F32.isInf, F32.isZero, F32.sign, F32.val, F32.ofExact,
      F32.zero]
  have e9 : ((F32.fin 0) * (F32.fin 0) : F32) = F32.fin 0 := by
    rw [F32.mul_fin]
    norm_num [F32.ofExact, F32.zero]
  have e10 : ((F32.fin 0) + (F32.fin 0) : F32) = F32.fin 0 := by
    rw [F32.add_fin]
    norm_num [F32.ofExact, F32.zero]
  have e11 : ((F32.fin 0) * (F32.fin 1) : F32) = F32.fin 0 := by
    rw [F32.mul_fin]
    norm_num [F32.ofExact, F32.zero]
  have e12 : ((F32.fin 0) / (F32.fin 1) : F32) = F32.fin 0 := by
    rw [F32.div_fin _ _ (by norm_num)]
    norm_num [F32.ofExact, F32.zero]
  have e13 : Fmod (F32.fin 0) (F32.fin 360) = F32.fin 0 := by
    rw [Fmod_eval_zero 0 (by norm_num) (truncQ_of_nonneg 0 (by norm_num) (by norm_num) (by norm_num)) (by norm_num)]
    norm_num [F32.zero]
  have e14 : (-(F32.fin 1) : F32) = F32.fin (-1) := F32.neg_fin _ (by norm_num)
  have e15 : ((F32.fin 0) * (F32.fin (-1)) : F32) = F32.negZero := by
    rw [F32.mul_fin]
    norm_num [F32.ofExact, F32.zero]
  have e16 : ((F32.fin (-(11744051 / 16777216))) + F32.negZero : F32) = F32.fin (-(11744051 / 16777216)) := by
    rw [F32.add_fin_negZero]
    exact F32.ofExact_eval_neg _ (-1) 11744051 (-24) (by norm_num) (by norm_num) (by norm_num)
      (by norm_num [abs_lt]) (by norm_num) (by norm_num) (by norm_num)
  have e17 : ((F32.fin 1) / (F32.fin 1) : F32) = F32.fin 1 := by
    rw [F32.div_fin _ _ (by norm_num)]
    exact F32.ofExact_eval_pos _ 0 8388608 (-23) (by norm_num) (by norm_num) (by norm_num)
      (by norm_num [abs_lt]) (by norm_num) (by norm_num)
  have e18 : ((F32.fin 1) * (F32.fin (13176795 / 4194304)) : F32) = F32.fin (13176795 / 4194304) := by
    rw [F32.mul_fin]
    exact F32.ofExact_eval_pos _ 1 13176795 (-22) (by norm_num) (by norm_num) (by norm_num)
      (by norm_num [abs_lt]) (by norm_num) (by norm_num)
  have e19 : ((F32.fin (13176795 / 4194304)) / (F32.fin 2) : F32) = F32.fin (13176795 / 8388608) := by
    rw [F32.div_fin _ _ (by norm_num)]
    exact F32.ofExact_eval_pos _ 0 13176795 (-23) (by norm_num) (by norm_num) (by norm_num)
      (by norm_num [abs_lt]) (by norm_num) (by norm_num)
  have e20 : ((F32.fin (-(11744051 / 16777216))) - (F32.fin (12897485 / 1048576)) : F32) = F32.fin (-13) := by
    rw [F32.sub_fin _ _ (by norm_num)]
    exact F32.ofExact_eval_neg _ 3 13631488 (-20) (by norm_num) (by norm_num) (by norm_num)
      (by norm_num [abs_lt]) (by norm_num) (by norm_num) (by norm_num)
  have e21 : ((F32.fin 1) * (F32.fin (-13)) : F32) = F32.fin (-13) := by
    rw [F32.mul_fin]
    exact F32.ofExact_eval_neg _ 3 13631488 (-20) (by norm_num) (by norm_num) (by norm_num)
      (by norm_num [abs_lt]) (by norm_num) (by norm_num) (by norm_num)
  have e22 : ((F32.fin (12897485 / 1048576)) + (F32.fin (-13)) : F32) = F32.fin (-(734003 / 1048576)) := by
    rw [F32.add_fin]
    exact F32.ofExact_eval_neg _ (-1) 11744048 (-24) (by norm_num) (by norm_num) (by norm_num)
      (by norm_num [abs_lt]) (by norm_num) (by norm_num) (by norm_num)
  have hroot : blendBody.m_Root ≠ none := by simp [blendBody, ACelestialBody.ctor]
  have hkm : F32.eq (kmPerDegree blendBody 1) 0 = false := by
    simp only [kmPerDegree, blendBody, ACelestialBody.ctor, F32.ofNat_eq, Nat.cast_ofNat, Nat.cast_one, Nat.cast_zero,
      e1, e2, e3, e4, e5, e6, e7, e8, e9, e10, e11, e12, e13, e14, e15, e16, e17, e18, e19, e20, e21, e22]
  have hle : F32.le blendBody.m_TransitionDelay (blendBody.m_TransitionTimer + 1) = true := by
    simp only [blendBody, ACelestialBody.ctor, F32.ofNat_eq, Nat.cast_ofNat, Nat.cast_one, Nat.cast_zero,
      e1, e2, e3, e4, e5, e6, e7, e8, e9, e10, e11, e12, e13, e14, e15, e16, e17, e18, e19, e20, e21, e22]
  have hperc : sampleMath.Sin (blendBody.m_TransitionDelay / blendBody.m_TransitionDelay
      * sampleMath.PI / 2) = F32.fin 1 := by
    simp only [blendBody, ACelestialBody.ctor, sampleMath_PI, F32.ofNat_eq, Nat.cast_ofNat, Nat.cast_one, Nat.cast_zero,
      sampleMath_Cos_zero, sampleMath_Sin_halfPI, sampleMath_Sin_zero, e1, e2, e3, e4, e5, e6, e7, e8, e9, e10, e11, e12, e13, e14, e15, e16, e17, e18, e19, e20, e21, e22]
  obtain ⟨s, t, hs, ha, hb, ht, hflag, htimer, hr⟩ :=
    Move_transition_end sampleEngine blendBody blendParent 0 1 1 1 hroot hkm rfl rfl rfl hle
  have hA : s.m_Angle = F32.fin 0 := by
    rw [ha]
    simp only [CalculateVelocity, GetAngleToCenter, angleIncrement, kmPerDegree, sampleEngine_toFMath,
      sampleMath_DEG_TO_RAD, blendBody, ACelestialBody.ctor,
      F32.ofNat_eq, Nat.cast_ofNat, Nat.cast_one, Nat.cast_zero, sampleMath_Cos_zero, sampleMath_Sin_halfPI, sampleMath_Sin_zero,
      e1, e2, e3, e4, e5, e6, e7, e8, e9, e10, e11, e12, e13, e14, e15, e16, e17, e18, e19, e20, e21, e22]
  have htv : some t = some (⟨F32.fin (-(11744051 / 16777216)), F32.fin 0, F32.fin 0⟩ :
      FVector F32) := by
    rw [← hb, hA]
    simp only [CalculatePosition, blendBody, blendParent, FVector.add, ACelestialBody.ctor,
      Bool.not_true, Bool.false_eq_true, if_false, sampleEngine_toFMath, sampleMath_DEG_TO_RAD,
      F32.ofNat_eq, Nat.cast_ofNat, Nat.cast_one, Nat.cast_zero, sampleMath_Cos_zero, sampleMath_Sin_halfPI, sampleMath_Sin_zero,
      e1, e2, e3, e4, e5, e6, e7, e8, e9, e10, e11, e12, e13, e14, e15, e16, e17, e18, e19, e20, e21, e22]
  have htX : t.X = F32.fin (-(11744051 / 16777216)) := by
    rw [Option.some.inj htv]
  have hrX : Lerp blendBody.m_TransitionPosStart.X t.X
      (sampleMath.Sin (blendBody.m_TransitionDelay / blendBody.m_TransitionDelay
        * sampleMath.PI / 2)) = F32.fin (-(734003 / 1048576)) := by
    rw [hperc, htX]
    simp only [Lerp, blendBody, e1, e2, e3, e4, e5, e6, e7, e8, e9, e10, e11, e12, e13, e14, e15, e16, e17, e18, e19, e20, e21, e22]
  refine ⟨rfl, rfl, hle, s, t, _, hs, ht, hflag, htimer, ?_, hr, htX, hrX, ?_⟩
  · rw [htimer, hperc, F32.one_eq]
  · show Lerp blendBody.m_TransitionPosStart.X t.X
      (sampleMath.Sin (blendBody.m_TransitionDelay / blendBody.m_TransitionDelay
        * sampleMath.PI / 2)) ≠ t.X
    rw [hrX, htX]
    intro h
    simp only [F32.fin.injEq] at h
    norm_num at h

/-- C8 (amended): with body movement enabled and `Move` able to run, `Move`
returns, with target position `t` (the value of `CalculatePosition` at the new
angle) and target rotation `(0, planet rotation, 0)`.  Started with the
transition flag off, it ends with the flag off, the timer untouched and the
body at the target.  Started with the flag on, it ends with the flag off exactly
when `delay <= timer + delta` in single precision; then the timer equals the
delay and, for a finite non-zero delay, `timer / delay` is 1; otherwise the flag
stays on and the timer is the single-precision sum `timer + delta`.  In both
cases of a started transition the body is placed at `Lerp(start, target,
perc)` with `perc = Sin(timer / delay * PI / 2)`. -/
theorem C8_transition_blend (E : Engine) (b : ACelestialBody F32) (p : AttachParent F32)
    (c timeScale distanceScale delta : F32)
    (hroot : b.m_Root ≠ none) (hkm : F32.eq (kmPerDegree b distanceScale) 0 = false)
    (hmove : b.m_bMoveBody = true) :
    ∃ s t, Move E b (some p) (some c) timeScale distanceScale delta = .returned s
      ∧ CalculatePosition E.toFMath s (some p) (s.m_Angle * E.DEG_TO_RAD) s.m_LastOffset
          distanceScale = some t
      ∧ (b.m_bMoveBodyTransition = false →
          s.m_bMoveBodyTransition = false ∧ s.m_TransitionTimer = b.m_TransitionTimer
            ∧ s.m_Root = some ⟨t, ⟨0, s.m_PlanetRotation, 0⟩⟩)
      ∧ (b.m_bMoveBodyTransition = true →
          (s.m_bMoveBodyTransition = false
              ↔ F32.le b.m_TransitionDelay (b.m_TransitionTimer + delta) = true)
            ∧ (F32.le b.m_TransitionDelay (b.m_TransitionTimer + delta) = true →
                s.m_TransitionTimer = b.m_TransitionDelay
                  ∧ (b.m_TransitionDelay.isFinite = true → b.m_TransitionDelay.val ≠ 0 →
                      s.m_TransitionTimer / b.m_TransitionDelay = 1))
            ∧ (F32.le b.m_TransitionDelay (b.m_TransitionTimer + delta) = false →
                s.m_bMoveBodyTransition = true
                  ∧ s.m_TransitionTimer = b.m_TransitionTimer + delta)
            ∧ s.m_Root = some
                ⟨LerpVector b.m_TransitionPosStart t
                    (E.Sin (s.m_TransitionTimer / b.m_TransitionDelay * E.PI / 2)),
                  E.LerpRotator b.m_TransitionRotStart ⟨0, s.m_PlanetRotation, 0⟩
                    (E.Sin (s.m_TransitionTimer / b.m_TransitionDelay * E.PI / 2))⟩) := by
  have hkm' : F32.eq (b.m_Perimeter * distanceScale * b.m_OrbitDistanceScale / 360) 0 = false :=
    hkm
  cases hr : b.m_Root with
  | none => exact absurd hr hroot
  | some r =>
    unfold Move
    simp only [hr]
    simp only [kmPerDegree, hkm', hmove, CalculatePosition]
    cases hp : p.IsCelestialBody <;>
      simp only [Bool.false_eq_true, if_false, if_true] <;>
      (cases htr : b.m_bMoveBodyTransition
       · simp only [Bool.false_eq_true, if_false]
         exact ⟨_, _, rfl, rfl, fun _ => ⟨rfl, rfl, rfl⟩, fun h => absurd h (by simp)⟩
       · simp only [if_true]
         cases hle : F32.le b.m_TransitionDelay (b.m_TransitionTimer + delta)
         · simp only [Bool.false_eq_true, if_false]
           refine ⟨_, _, rfl, rfl, fun h => absurd h (by simp), fun _ => ⟨?_, ?_, ?_, rfl⟩⟩
           · simp [htr]
           · intro h; exact absurd h (by simp)
           · intro _; exact ⟨rfl, rfl⟩
         · simp only [if_true]
           refine ⟨_, _, rfl, rfl, fun h => absurd h (by simp), fun _ => ⟨?_, ?_, ?_, rfl⟩⟩
           · simp
           · intro _
             exact ⟨rfl, fun hfin hne => F32.div_self_eq hfin hne⟩
           · intro h; exact absurd h (by simp))

/-- C8 (amended), instance: the body in a transition with delay 1 and timer 0
makes a step with `delta = 1 / 2`; the transition goes on, with timer `1 / 2`. -/
theorem C8_transition_blend_witness :
    ∃ s t, Move sampleEngine blendBody (some blendParent) (some 0) 1 1 (F32.fin (1 / 2))
        = .returned s
      ∧ CalculatePosition sampleMath s (some blendParent) (s.m_Angle * sampleMath.DEG_TO_RAD)
          s.m_LastOffset 1 = some t
      ∧ s.m_bMoveBodyTransition = true
      ∧ s.m_TransitionTimer = F32.fin (1 / 2)
      ∧ s.m_Root = some
          ⟨LerpVector blendBody.m_TransitionPosStart t
              (sampleMath.Sin (s.m_TransitionTimer / blendBody.m_TransitionDelay
                * sampleMath.PI / 2)),
            sampleEngine.LerpRotator blendBody.m_TransitionRotStart ⟨0, s.m_PlanetRotation, 0⟩
              (sampleMath.Sin (s.m_TransitionTimer / blendBody.m_TransitionDelay
                * sampleMath.PI / 2))⟩ := by
  have hroot : blendBody.m_Root ≠ none := by simp [blendBody, ACelestialBody.ctor]
  have hkm : F32.eq (kmPerDegree blendBody 1) 0 = false := by
    have w1 : ((F32.fin 360) * (F32.fin 1) : F32) = F32.fin 360 := by
      rw [F32.mul_fin]
      exact F32.ofExact_eval_pos _ 8 11796480 (-15) (by norm_num) (by norm_num) (by norm_num)
        (by norm_num [abs_lt]) (by norm_num) (by norm_num)
    have w2 : ((F32.fin 360) / (F32.fin 360) : F32) = F32.fin 1 := by
      rw [F32.div_fin _ _ (by norm_num)]
      exact F32.ofExact_eval_pos _ 0 8388608 (-23) (by norm_num) (by norm_num) (by norm_num)
        (by norm_num [abs_lt]) (by norm_num) (by norm_num)
    have w3 : F32.eq (F32.fin 1) (F32.fin 0) = false := by
      norm_num [F32.eq, F32.le, F32.val]
    have w4 : ((F32.fin 0) + (F32.fin (1 / 2)) : F32) = F32.fin (1 / 2) := by
      rw [F32.add_fin]
      exact F32.ofExact_eval_pos _ (-1) 8388608 (-24) (by norm_num) (by norm_num) (by norm_num)
        (by norm_num [abs_lt]) (by norm_num) (by norm_num)
    have w5 : F32.le (F32.fin 1) (F32.fin (1 / 2)) = false := by
      norm_num [F32.le, F32.val]
    simp only [kmPerDegree, blendBody, ACelestialBody.ctor, F32.ofNat_eq, Nat.cast_ofNat, Nat.cast_one, Nat.cast_zero,
      w1, w2, w3, w4, w5]
  have hsum : blendBody.m_TransitionTimer + F32.fin (1 / 2) = F32.fin (1 / 2) := by
    have w1 : ((F32.fin 360) * (F32.fin 1) : F32) = F32.fin 360 := by
      rw [F32.mul_fin]
      exact F32.ofExact_eval_pos _ 8 11796480 (-15) (by norm_num) (by norm_num) (by norm_num)
        (by norm_num [abs_lt]) (by norm_num) (by norm_num)
    have w2 : ((F32.fin 360) / (F32.fin 360) : F32) = F32.fin 1 := by
      rw [F32.div_fin _ _ (by norm_num)]
      exact F32.ofExact_eval_pos _ 0 8388608 (-23) (by norm_num) (by norm_num) (by norm_num)
        (by norm_num [abs_lt]) (by norm_num) (by norm_num)
    have w3 : F32.eq (F32.fin 1) (F32.fin 0) = false := by
      norm_num [F32.eq, F32.le, F32.val]
    have w4 : ((F32.fin 0) + (F32.fin (1 / 2)) : F32) = F32.fin (1 / 2) := by
      rw [F32.add_fin]
      exact F32.ofExact_eval_pos _ (-1) 8388608 (-24) (by norm_num) (by norm_num) (by norm_num)
        (by norm_num [abs_lt]) (by norm_num) (by norm_num)
    have w5 : F32.le (F32.fin 1) (F32.fin (1 / 2)) = false := by
      norm_num [F32.le, F32.val]
    simp only [blendBody, ACelestialBody.ctor, F32.ofNat_eq, Nat.cast_ofNat, Nat.cast_one, Nat.cast_zero,
      w1, w2, w3, w4, w5]
  have hle : F32.le blendBody.m_TransitionDelay
      (blendBody.m_TransitionTimer + F32.fin (1 / 2)) = false := by
    have w1 : ((F32.fin 360) * (F32.fin 1) : F32) = F32.fin 360 := by
      rw [F32.mul_fin]
      exact F32.ofExact_eval_pos _ 8 11796480 (-15) (by norm_num) (by norm_num) (by norm_num)
        (by norm_num [abs_lt]) (by norm_num) (by norm_num)
    have w2 : ((F32.fin 360) / (F32.fin 360) : F32) = F32.fin 1 := by
      rw [F32.div_fin _ _ (by norm_num)]
      exact F32.ofExact_eval_pos _ 0 8388608 (-23) (by norm_num) (by norm_num) (by norm_num)
        (by norm_num [abs_lt]) (by norm_num) (by norm_num)
    have w3 : F32.eq (F32.fin 1) (F32.fin 0) = false := by
      norm_num [F32.eq, F32.le, F32.val]
    have w4 : ((F32.fin 0) + (F32.fin (1 / 2)) : F32) = F32.fin (1 / 2) := by
      rw [F32.add_fin]
      exact F32.ofExact_eval_pos _ (-1) 8388608 (-24) (by norm_num) (by norm_num) (by norm_num)
        (by norm_num [abs_lt]) (by norm_num) (by norm_num)
    have w5 : F32.le (F32.fin 1) (F32.fin (1 / 2)) = false := by
      norm_num [F32.le, F32.val]
    rw [hsum]
    simp only [blendBody, ACelestialBody.ctor, F32.ofNat_eq, Nat.cast_ofNat, Nat.cast_one, Nat.cast_zero,
      w1, w2, w3, w4, w5]
  obtain ⟨s, t, hs, ht, -, h⟩ :=
    C8_transition_blend sampleEngine blendBody blendParent 0 1 1 (F32.fin (1 / 2)) hroot hkm rfl
  have h2 := h rfl
  have h3 := h2.2.2.1 hle
  exact ⟨s, t, hs, ht, h3.1, by rw [h3.2, hsum], h2.2.2.2⟩

/-! ## C9: the axial rotation -/

/-- C9 (as stated, refuted): for a body with `orbitPeriod = 2^127` and
`rotationScale = 2` the product `orbitPeriod * rotationScale` overflows, and
`CalculateRotation` returns NaN at `θ = PI2`: the result is not a number of
magnitude below `2π`.  `Move` on this body (at angle 0, where the overflowed
product is multiplied by 0) stores NaN as the planet rotation. -/
theorem C9_counterexample :
    CalculateRotation sampleMath spinBody sampleMath.PI2 = F32.nan
      ∧ F32.le (CalculateRotation sampleMath spinBody sampleMath.PI2) sampleMath.PI2 = false
      ∧ ∃ s, Move sampleEngine spinBody (some originParent) (some 0) 1 1 1 = .returned s
          ∧ s.m_PlanetRotation = F32.nan := by
  have e1 : ((F32.fin 170141183460469231731687303715884105728) * (F32.fin 2) : F32) = F32.inf false := by
    rw [F32.mul_fin]
    exact F32.ofExact_overflow _ (by norm_num)
  have e2 : ((F32.fin (13176795 / 2097152)) / (F32.fin (13176795 / 2097152)) : F32) = F32.fin 1 := by
    rw [F32.div_fin _ _ (by norm_num)]
    exact F32.ofExact_eval_pos _ 0 8388608 (-23) (by norm_num) (by norm_num) (by norm_num)
      (by norm_num [abs_lt]) (by norm_num) (by norm_num)
  have e3 : ((F32.inf false) * (F32.fin 1) : F32) = F32.inf false := by
    norm_num [F32.add_def, F32.add, F32.mul_def, F32.mul, F32.div_def, F32.div, F32.sub_def,
      F32.neg_def, F32.neg, F32.isNaN, F32.isInf, F32.isZero, F32.sign, F32.val, F32.ofExact,
      F32.zero]
  have e4 : Fmod (F32.inf false) (F32.fin 1) = F32.nan := by
    norm_num [Fmod, F32.isNaN, F32.isInf, F32.isZero, F32.val, F32.sign, F32.zero, truncQ]
  have e5 : (F32.nan * (F32.fin (13176795 / 2097152)) : F32) = F32.nan := by
    norm_num [F32.add_def, F32.add, F32.mul_def, F32.mul, F32.div_def, F32.div, F32.sub_def,
      F32.neg_def, F32.neg, F32.isNaN, F32.isInf, F32.isZero, F32.sign, F32.val, F32.ofExact,
      F32.zero]
  have e6 : (-F32.nan : F32) = F32.nan := by
    norm_num [F32.neg_def, F32.neg]
  have e7 : ((F32.fin 360) * (F32.fin 1) : F32) = F32.fin 360 := by
    rw [F32.mul_fin]
    exact F32.ofExact_eval_pos _ 8 11796480 (-15) (by norm_num) (by norm_num) (by norm_num)
      (by norm_num [abs_lt]) (by norm_num) (by norm_num)
  have e8 : ((F32.fin 360) / (F32.fin 360) : F32) = F32.fin 1 := by
    rw [F32.div_fin _ _ (by norm_num)]
    exact F32.ofExact_eval_pos _ 0 8388608 (-23) (by norm_num) (by norm_num) (by norm_num)
      (by norm_num [abs_lt]) (by norm_num) (by norm_num)
  have e9 : F32.eq (F32.fin 1) (F32.fin 0) = false := by
    norm_num [F32.eq, F32.le, F32.val]
  have e10 : ((F32.fin 0) * (F32.fin (9370165 / 536870912)) : F32) = F32.fin 0 := by
    rw [F32.mul_fin]
    norm_num [F32.ofExact, F32.zero]
  have e11 : ((F32.fin 0) / (F32.fin 2) : F32) = F32.fin 0 := by
    rw [F32.div_fin _ _ (by norm_num)]
    norm_num [F32.ofExact, F32.zero]
  have e12 : ((F32.fin 0) - (F32.fin 0) : F32) = F32.fin 0 := by
    norm_num [F32.add_def, F32.add, F32.mul_def, F32.mul, F32.div_def, F32.div, F32.sub_def,
      F32.neg_def, F32.neg, F32.isNaN, F32.isInf, F32.isZero, F32.sign, F32.val, F32.ofExact,
      F32.zero]
  have e13 : ((F32.fin 0) * (F32.fin 0) : F32) = F32.fin 0 := by
    rw [F32.mul_fin]
    norm_num [F32.ofExact, F32.zero]
  have e14 : ((F32.fin 0) + (F32.fin 0) : F32) = F32.fin 0 := by
    rw [F32.add_fin]
    norm_num [F32.ofExact, F32.zero]
  have e15 : ((F32.fin 0) * (F32.fin 1) : F32) = F32.fin 0 := by
    rw [F32.mul_fin]
    norm_num [F32.ofExact, F32.zero]
  have e16 : ((F32.fin 0) / (F32.fin 1) : F32) = F32.fin 0 := by
    rw [F32.div_fin _ _ (by norm_num)]
    norm_num [F32.ofExact, F32.zero]
  have e17 : Fmod (F32.fin 0) (F32.fin 360) = F32.fin 0 := by
    rw [Fmod_eval_zero 0 (by norm_num) (truncQ_of_nonneg 0 (by norm_num) (by norm_num) (by norm_num)) (by norm_num)]
    norm_num [F32.zero]
  have e18 : ((F32.fin 0) / (F32.fin (13176795 / 2097152)) : F32) = F32.fin 0 := by
    rw [F32.div_fin _ _ (by norm_num)]
    norm_num [F32.ofExact, F32.zero]
  have e19 : ((F32.inf false) * (F32.fin 0) : F32) = F32.nan := by
    norm_num [F32.add_def, F32.add, F32.mul_def, F32.mul, F32.div_def, F32.div, F32.sub_def,
      F32.neg_def, F32.neg, F32.isNaN, F32.isInf, F32.isZero, F32.sign, F32.val, F32.ofExact,
      F32.zero]
  have e20 : Fmod F32.nan (F32.fin 1) = F32.nan := by
    norm_num [Fmod, F32.isNaN, F32.isInf, F32.isZero, F32.val, F32.sign, F32.zero, truncQ]
  have e21 : (F32.nan * (F32.fin (15019745 / 262144)) : F32) = F32.nan := by
    norm_num [F32.add_def, F32.add, F32.mul_def, F32.mul, F32.div_def, F32.div, F32.sub_def,
      F32.neg_def, F32.neg, F32.isNaN, F32.isInf, F32.isZero, F32.sign, F32.val, F32.ofExact,
      F32.zero]
  have hroot : spinBody.m_Root ≠ none := by simp [spinBody, ACelestialBody.ctor]
  have hkm : F32.eq (kmPerDegree spinBody 1) 0 = false := by
    simp only [kmPerDegree, spinBody, ACelestialBody.ctor, F32.ofNat_eq, Nat.cast_ofNat, Nat.cast_one, Nat.cast_zero,
      e1, e2, e3, e4, e5, e6, e7, e8, e9, e10, e11, e12, e13, e14, e15, e16, e17, e18, e19, e20, e21]
  have h1 : CalculateRotation sampleMath spinBody sampleMath.PI2 = F32.nan := by
    simp only [CalculateRotation, sampleMath_PI2, spinBody, ACelestialBody.ctor,
      Bool.false_eq_true, if_false, F32.ofNat_eq, Nat.cast_ofNat, Nat.cast_one, Nat.cast_zero,
      e1, e2, e3, e4, e5, e6, e7, e8, e9, e10, e11, e12, e13, e14, e15, e16, e17, e18, e19, e20, e21]
  obtain ⟨s, hs, ha, hrot, -⟩ :=
    Move_returns sampleEngine spinBody originParent 0 1 1 1 hroot hkm
  refine ⟨h1, by rw [h1]; rfl, s, hs, ?_⟩
  rw [hrot, ha]
  simp only [CalculateVelocity, GetAngleToCenter, angleIncrement, kmPerDegree, sampleEngine_toFMath,
      sampleMath_DEG_TO_RAD, CalculateRotation, sampleMath_PI2, sampleMath_RAD_TO_DEG, spinBody,
    ACelestialBody.ctor, Bool.false_eq_true, if_false, F32.ofNat_eq, Nat.cast_ofNat, Nat.cast_one, Nat.cast_zero,
    sampleMath_Sin_zero,
    e1, e2, e3, e4, e5, e6, e7, e8, e9, e10, e11, e12, e13, e14, e15, e16, e17, e18, e19, e20, e21]

/-- C9 (amended): `CalculateRotation` returns the single-precision product
`s * r` with `r = fmod(orbitPeriod * rotationScale * (θ / PI2), 1) * PI2`
evaluated in single precision, `s = 1` for a clockwise planet and `s = -1`
otherwise, so the counter-clockwise result is the exact negation of the
clockwise one.  When `PI2` is a finite positive float, the result is NaN or
lies between `-PI2` and `PI2` (bounds included); and when also `RAD_TO_DEG` is
finite and positive and `Move` can run, `Move` returns with a stored planet
rotation that is NaN or lies between `-(PI2 * RAD_TO_DEG)` and
`PI2 * RAD_TO_DEG` (bounds included). -/
theorem C9_rotation (E : Engine) (b : ACelestialBody F32) (p : AttachParent F32)
    (θ c timeScale distanceScale delta : F32) :
    CalculateRotation E.toFMath b θ
        = (if b.m_RotatePlanetClockwise then (1 : F32) else -1)
            * (Fmod (b.m_OrbitPeriod * b.m_RotationScale * (θ / E.PI2)) 1 * E.PI2)
      ∧ CalculateRotation E.toFMath { b with m_RotatePlanetClockwise := false } θ
          = -CalculateRotation E.toFMath { b with m_RotatePlanetClockwise := true } θ
      ∧ (E.PI2.isFinite = true → 0 < E.PI2.val → E.PI2.IsFloat →
          (CalculateRotation E.toFMath b θ = F32.nan
            ∨ (F32.le (-E.PI2) (CalculateRotation E.toFMath b θ) = true
                ∧ F32.le (CalculateRotation E.toFMath b θ) E.PI2 = true))
          ∧ (E.RAD_TO_DEG.isFinite = true → 0 < E.RAD_TO_DEG.val →
              b.m_Root ≠ none → F32.eq (kmPerDegree b distanceScale) 0 = false →
              ∃ s, Move E b (some p) (some c) timeScale distanceScale delta = .returned s
                ∧ (s.m_PlanetRotation = F32.nan
                  ∨ (F32.le (-(E.PI2 * E.RAD_TO_DEG)) s.m_PlanetRotation = true
                      ∧ F32.le s.m_PlanetRotation (E.PI2 * E.RAD_TO_DEG) = true)))) := by
  have hprod : CalculateRotation E.toFMath b θ
      = (if b.m_RotatePlanetClockwise then (1 : F32) else -1)
          * (Fmod (b.m_OrbitPeriod * b.m_RotationScale * (θ / E.PI2)) 1 * E.PI2) := by
    unfold CalculateRotation
    cases b.m_RotatePlanetClockwise
    · simp only [Bool.false_eq_true, if_false]
      rw [F32.neg_one_mul_eq (F32.mul_isFloat _ _)]
    · simp only [if_true]
      rw [F32.one_mul_eq (F32.mul_isFloat _ _)]
  refine ⟨hprod, rfl, fun hfin hpos hfl => ⟨CalculateRotation_range E.toFMath b θ hfin hpos hfl,
    fun hdfin hdpos hroot hkm => ?_⟩⟩
  obtain ⟨s, hs, -, hrot, -⟩ := Move_returns E b p c timeScale distanceScale delta hroot hkm
  refine ⟨s, hs, ?_⟩
  rw [hrot]
  rcases CalculateRotation_range E.toFMath b (s.m_Angle * E.DEG_TO_RAD) hfin hpos hfl
    with hnan | ⟨hlo, hhi⟩
  · left
    rw [hnan]
    rfl
  · right
    refine ⟨?_, F32.mul_le_mul_right hdfin hdpos hhi⟩
    rw [← F32.neg_mul]
    exact F32.mul_le_mul_right hdfin hdpos hlo

/-- C9 (amended), instance: a body with `orbitPeriod = 3` and rotation scale 1
that moves one degree per unit of time.  At `θ = PI / 2` its rotation is
`-4.71238899` (three quarters of `-PI2`), and after one step from angle 0
the stored planet rotation is `-3` degrees. -/
theorem C9_rotation_witness :
    CalculateRotation sampleMath turningBody (F32.fin (13176795 / 8388608))
        = F32.fin (-(2470649 / 524288))
      ∧ (CalculateRotation sampleMath turningBody (F32.fin (13176795 / 8388608)) = F32.nan
        ∨ (F32.le (-sampleMath.PI2)
              (CalculateRotation sampleMath turningBody (F32.fin (13176795 / 8388608))) = true
            ∧ F32.le (CalculateRotation sampleMath turningBody (F32.fin (13176795 / 8388608)))
              sampleMath.PI2 = true))
      ∧ ∃ s, Move sampleEngine turningBody (some originParent) (some 0) 1 1 1 = .returned s
          ∧ s.m_PlanetRotation = F32.fin (-3)
          ∧ (s.m_PlanetRotation = F32.nan
            ∨ (F32.le (-(sampleMath.PI2 * sampleMath.RAD_TO_DEG)) s.m_PlanetRotation = true
              ∧ F32.le s.m_PlanetRotation (sampleMath.PI2 * sampleMath.RAD_TO_DEG) = true)) := by
  have w1 : ((F32.fin 360) * (F32.fin 1) : F32) = F32.fin 360 := by
    rw [F32.mul_fin]
    exact F32.ofExact_eval_pos _ 8 11796480 (-15) (by norm_num) (by norm_num) (by norm_num)
      (by norm_num [abs_lt]) (by norm_num) (by norm_num)
  have w2 : ((F32.fin 360) / (F32.fin 360) : F32) = F32.fin 1 := by
    rw [F32.div_fin _ _ (by norm_num)]
    exact F32.ofExact_eval_pos _ 0 8388608 (-23) (by norm_num) (by norm_num) (by norm_num)
      (by norm_num [abs_lt]) (by norm_num) (by norm_num)
  have w3 : F32.eq (F32.fin 1) (F32.fin 0) = false := by
    norm_num [F32.eq, F32.le, F32.val]
  have w4 : ((F32.fin 3) * (F32.fin 1) : F32) = F32.fin 3 := by
    rw [F32.mul_fin]
    exact F32.ofExact_eval_pos _ 1 12582912 (-22) (by norm_num) (by norm_num) (by norm_num)
      (by norm_num [abs_lt]) (by norm_num) (by norm_num)
  have w5 : ((F32.fin (13176795 / 8388608)) / (F32.fin (13176795 / 2097152)) : F32) = F32.fin (1 / 4) := by
    rw [F32.div_fin _ _ (by norm_num)]
    exact F32.ofExact_eval_pos _ (-2) 8388608 (-25) (by norm_num) (by norm_num) (by norm_num)
      (by norm_num [abs_lt]) (by norm_num) (by norm_num)
  have w6 : ((F32.fin 3) * (F32.fin (1 / 4)) : F32) = F32.fin (3 / 4) := by
    rw [F32.mul_fin]
    exact F32.ofExact_eval_pos _ (-1) 12582912 (-24) (by norm_num) (by norm_num) (by norm_num)
      (by norm_num [abs_lt]) (by norm_num) (by norm_num)
  have w7 : Fmod (F32.fin (3 / 4)) (F32.fin 1) = F32.fin (3 / 4) :=
    Fmod_eval 0 (by norm_num) (truncQ_of_nonneg 0 (by norm_num) (by norm_num) (by norm_num))
      (by norm_num) (by norm_num)
  have w8 : ((F32.fin (3 / 4)) * (F32.fin (13176795 / 2097152)) : F32) = F32.fin (2470649 / 524288) := by
    rw [F32.mul_fin]
    exact F32.ofExact_eval_pos _ 2 9882596 (-21) (by norm_num) (by norm_num) (by norm_num)
      (by norm_num [abs_lt]) (by norm_num) (by norm_num)
  have w9 : (-(F32.fin (2470649 / 524288)) : F32) = F32.fin (-(2470649 / 524288)) := F32.neg_fin _ (by norm_num)
  have w10 : ((F32.fin 0) * (F32.fin (9370165 / 536870912)) : F32) = F32.fin 0 := by
    rw [F32.mul_fin]
    norm_num [F32.ofExact, F32.zero]
  have w11 : ((F32.fin 0) / (F32.fin 2) : F32) = F32.fin 0 := by
    rw [F32.div_fin _ _ (by norm_num)]
    norm_num [F32.ofExact, F32.zero]
  have w12 : ((F32.fin 1) - (F32.fin 1) : F32) = F32.fin 0 := by
    rw [F32.sub_fin _ _ (by norm_num)]
    norm_num [F32.ofExact, F32.zero]
  have w13 : ((F32.fin 0) * (F32.fin 0) : F32) = F32.fin 0 := by
    rw [F32.mul_fin]
    norm_num [F32.ofExact, F32.zero]
  have w14 : ((F32.fin 1) + (F32.fin 0) : F32) = F32.fin 1 := by
    rw [F32.add_fin]
    exact F32.ofExact_eval_pos _ 0 8388608 (-23) (by norm_num) (by norm_num) (by norm_num)
      (by norm_num [abs_lt]) (by norm_num) (by norm_num)
  have w15 : ((F32.fin 1) * (F32.fin 1) : F32) = F32.fin 1 := by
    rw [F32.mul_fin]
    exact F32.ofExact_eval_pos _ 0 8388608 (-23) (by norm_num) (by norm_num) (by norm_num)
      (by norm_num [abs_lt]) (by norm_num) (by norm_num)
  have w16 : ((F32.fin 1) / (F32.fin 1) : F32) = F32.fin 1 := by
    rw [F32.div_fin _ _ (by norm_num)]
    exact F32.ofExact_eval_pos _ 0 8388608 (-23) (by norm_num) (by norm_num) (by norm_num)
      (by norm_num [abs_lt]) (by norm_num) (by norm_num)
  have w17 : ((F32.fin 0) + (F32.fin 1) : F32) = F32.fin 1 := by
    rw [F32.add_fin]
    exact F32.ofExact_eval_pos _ 0 8388608 (-23) (by norm_num) (by norm_num) (by norm_num)
      (by norm_num [abs_lt]) (by norm_num) (by norm_num)
  have w18 : Fmod (F32.fin 1) (F32.fin 360) = F32.fin 1 :=
    Fmod_eval 0 (by norm_num) (truncQ_of_nonneg 0 (by norm_num) (by norm_num) (by norm_num))
      (by norm_num) (by norm_num)
  have w19 : ((F32.fin 1) * (F32.fin (9370165 / 536870912)) : F32) = F32.fin (9370165 / 536870912) := by
    rw [F32.mul_fin]
    exact F32.ofExact_eval_pos _ (-6) 9370165 (-29) (by norm_num) (by norm_num) (by norm_num)
      (by norm_num [abs_lt]) (by norm_num) (by norm_num)
  have w20 : ((F32.fin (9370165 / 536870912)) / (F32.fin (13176795 / 2097152)) : F32) = F32.fin (372827 / 134217728) := by
    rw [F32.div_fin _ _ (by norm_num)]
    exact F32.ofExact_eval_pos _ (-9) 11930464 (-32) (by norm_num) (by norm_num) (by norm_num)
      (by norm_num [abs_lt]) (by norm_num) (by norm_num)
  have w21 : ((F32.fin 3) * (F32.fin (372827 / 134217728)) : F32) = F32.fin (1118481 / 134217728) := by
    rw [F32.mul_fin]
    exact F32.ofExact_eval_pos _ (-7) 8947848 (-30) (by norm_num) (by norm_num) (by norm_num)
      (by norm_num [abs_lt]) (by norm_num) (by norm_num)
  have w22 : Fmod (F32.fin (1118481 / 134217728)) (F32.fin 1) = F32.fin (1118481 / 134217728) :=
    Fmod_eval 0 (by norm_num) (truncQ_of_nonneg 0 (by norm_num) (by norm_num) (by norm_num))
      (by norm_num) (by norm_num)
  have w23 : ((F32.fin (1118481 / 134217728)) * (F32.fin (13176795 / 2097152)) : F32) = F32.fin (14055247 / 268435456) := by
    rw [F32.mul_fin]
    exact F32.ofExact_eval_pos _ (-5) 14055247 (-28) (by norm_num) (by norm_num) (by norm_num)
      (by norm_num [abs_lt]) (by norm_num) (by norm_num)
  have w24 : (-(F32.fin (14055247 / 268435456)) : F32) = F32.fin (-(14055247 / 268435456)) := F32.neg_fin _ (by norm_num)
  have w25 : ((F32.fin (-(14055247 / 268435456))) * (F32.fin (15019745 / 262144)) : F32) = F32.fin (-3) := by
    rw [F32.mul_fin]
    exact F32.ofExact_eval_neg _ 1 12582912 (-22) (by norm_num) (by norm_num) (by norm_num)
      (by norm_num [abs_lt]) (by norm_num) (by norm_num) (by norm_num)
  have hroot : turningBody.m_Root ≠ none := by simp [turningBody, ACelestialBody.ctor]
  have hkm : F32.eq (kmPerDegree turningBody 1) 0 = false := by
    simp only [kmPerDegree, turningBody, ACelestialBody.ctor, F32.ofNat_eq, Nat.cast_ofNat, Nat.cast_one, Nat.cast_zero,
      w1, w2, w3, w4, w5, w6, w7, w8, w9, w10, w11, w12, w13, w14, w15, w16, w17, w18, w19, w20, w21, w22, w23, w24, w25]
  have h := (C9_rotation sampleEngine turningBody originParent (F32.fin (13176795 / 8388608))
    0 1 1 1).2.2 rfl (by rw [sampleEngine_toFMath, sampleMath_PI2]; norm_num [F32.val])
    (F32.isFloat_of_rep _ 13176795 (-21) (by norm_num) (by norm_num) (by norm_num)
      (by norm_num))
  obtain ⟨s, hs, hrange⟩ := h.2 rfl
    (by rw [sampleEngine_toFMath, sampleMath_RAD_TO_DEG]; norm_num [F32.val]) hroot hkm
  obtain ⟨s2, hs2, ha, hrot, -⟩ :=
    Move_returns sampleEngine turningBody originParent 0 1 1 1 hroot hkm
  have hss : s2 = s := by
    rw [hs] at hs2
    injection hs2 with h2
    exact h2.symm
  subst hss
  refine ⟨?_, h.1, s2, hs, ?_, hrange⟩
  · simp only [CalculateRotation, sampleMath_PI2, turningBody, ACelestialBody.ctor,
      Bool.false_eq_true, if_false, F32.ofNat_eq, Nat.cast_ofNat, Nat.cast_one, Nat.cast_zero,
      w1, w2, w3, w4, w5, w6, w7, w8, w9, w10, w11, w12, w13, w14, w15, w16, w17, w18, w19, w20, w21, w22, w23, w24, w25]
  · rw [hrot, ha]
    simp only [CalculateVelocity, GetAngleToCenter, angleIncrement, kmPerDegree, sampleEngine_toFMath,
      sampleMath_DEG_TO_RAD, CalculateRotation, sampleMath_PI2, sampleMath_RAD_TO_DEG, turningBody,
      ACelestialBody.ctor, Bool.false_eq_true, if_false, F32.ofNat_eq, Nat.cast_ofNat, Nat.cast_one, Nat.cast_zero,
      sampleMath_Sin_zero,
      w1, w2, w3, w4, w5, w6, w7, w8, w9, w10, w11, w12, w13, w14, w15, w16, w17, w18, w19, w20, w21, w22, w23, w24, w25]

/-! ## C10: the angle increment and the distance scales -/

/-- C10 (as stated, refuted): for a body with perimeter 100 that moves at speed
1, with `timeScale = delta = 1` and starting at angle 0, `Move` stores the
angle `7549747 / 2^21 = 3.5999999` for `distanceScale = 1` (the
single-precision value of `360 * 1 * 1 * 1 / 100`) and the angle
`15099495 / 2^22 = 3.60000014` for `distanceScale = 3`: the amount added
depends on the distance scale. -/
theorem C10_counterexample :
    F32.eq (kmPerDegree hundredBody 1) 0 = false
      ∧ F32.eq (kmPerDegree hundredBody 3) 0 = false
      ∧ (360 : F32) * 1 * 1 * 1 / 100 = F32.fin (7549747 / 2097152)
      ∧ ∃ s1 s3, Move sampleEngine hundredBody (some originParent) (some 0) 1 1 1 = .returned s1
          ∧ Move sampleEngine hundredBody (some originParent) (some 0) 1 3 1 = .returned s3
          ∧ s1.m_Angle = F32.fin (7549747 / 2097152)
          ∧ s3.m_Angle = F32.fin (15099495 / 4194304)
          ∧ s1.m_Angle ≠ s3.m_Angle := by
  have e1 : ((F32.fin 100) * (F32.fin 1) : F32) = F32.fin 100 := by
    rw [F32.mul_fin]
    exact F32.ofExact_eval_pos _ 6 13107200 (-17) (by norm_num) (by norm_num) (by norm_num)
      (by norm_num [abs_lt]) (by norm_num) (by norm_num)
  have e2 : ((F32.fin 100) / (F32.fin 360) : F32) = F32.fin (2330169 / 8388608) := by
    rw [F32.div_fin _ _ (by norm_num)]
    exact F32.ofExact_eval_pos _ (-2) 9320676 (-25) (by norm_num) (by norm_num) (by norm_num)
      (by norm_num [abs_lt]) (by norm_num) (by norm_num)
  have e3 : ((F32.fin 100) * (F32.fin 3) : F32) = F32.fin 300 := by
    rw [F32.mul_fin]
    exact F32.ofExact_eval_pos _ 8 9830400 (-15) (by norm_num) (by norm_num) (by norm_num)
      (by norm_num [abs_lt]) (by norm_num) (by norm_num)
  have e4 : ((F32.fin 300) * (F32.fin 1) : F32) = F32.fin 300 := by
    rw [F32.mul_fin]
    exact F32.ofExact_eval_pos _ 8 9830400 (-15) (by norm_num) (by norm_num) (by norm_num)
      (by norm_num [abs_lt]) (by norm_num) (by norm_num)
  have e5 : ((F32.fin 300) / (F32.fin 360) : F32) = F32.fin (13981013 / 16777216) := by
    rw [F32.div_fin _ _ (by norm_num)]
    exact F32.ofExact_eval_pos _ (-1) 13981013 (-24) (by norm_num) (by norm_num) (by norm_num)
      (by norm_num [abs_lt]) (by norm_num) (by norm_num)
  have e6 : F32.eq (F32.fin (2330169 / 8388608)) (F32.fin 0) = false := by
    norm_num [F32.eq, F32.le, F32.val]
  have e7 : F32.eq (F32.fin (13981013 / 16777216)) (F32.fin 0) = false := by
    norm_num [F32.eq, F32.le, F32.val]
  have e8 : ((F32.fin 0) * (F32.fin (9370165 / 536870912)) : F32) = F32.fin 0 := by
    rw [F32.mul_fin]
    norm_num [F32.ofExact, F32.zero]
  have e9 : ((F32.fin 0) / (F32.fin 2) : F32) = F32.fin 0 := by
    rw [F32.div_fin _ _ (by norm_num)]
    norm_num [F32.ofExact, F32.zero]
  have e10 : ((F32.fin 1) - (F32.fin 1) : F32) = F32.fin 0 := by
    rw [F32.sub_fin _ _ (by norm_num)]
    norm_num [F32.ofExact, F32.zero]
  have e11 : ((F32.fin 0) * (F32.fin 0) : F32) = F32.fin 0 := by
    rw [F32.mul_fin]
    norm_num [F32.ofExact, F32.zero]
  have e12 : ((F32.fin 1) + (F32.fin 0) : F32) = F32.fin 1 := by
    rw [F32.add_fin]
    exact F32.ofExact_eval_pos _ 0 8388608 (-23) (by norm_num) (by norm_num) (by norm_num)
      (by norm_num [abs_lt]) (by norm_num) (by norm_num)
  have e13 : ((F32.fin 1) * (F32.fin 1) : F32) = F32.fin 1 := by
    rw [F32.mul_fin]
    exact F32.ofExact_eval_pos _ 0 8388608 (-23) (by norm_num) (by norm_num) (by norm_num)
      (by norm_num [abs_lt]) (by norm_num) (by norm_num)
  have e14 : ((F32.fin 1) / (F32.fin (2330169 / 8388608)) : F32) = F32.fin (7549747 / 2097152) := by
    rw [F32.div_fin _ _ (by norm_num)]
    exact F32.ofExact_eval_pos _ 1 15099494 (-22) (by norm_num) (by norm_num) (by norm_num)
      (by norm_num [abs_lt]) (by norm_num) (by norm_num)
  have e15 : ((F32.fin 0) + (F32.fin (7549747 / 2097152)) : F32) = F32.fin (7549747 / 2097152) := by
    rw [F32.add_fin]
    exact F32.ofExact_eval_pos _ 1 15099494 (-22) (by norm_num) (by norm_num) (by norm_num)
      (by norm_num [abs_lt]) (by norm_num) (by norm_num)
  have e16 : Fmod (F32.fin (7549747 / 2097152)) (F32.fin 360) = F32.fin (7549747 / 2097152) :=
    Fmod_eval 0 (by norm_num) (truncQ_of_nonneg 0 (by norm_num) (by norm_num) (by norm_num))
      (by norm_num) (by norm_num)
  have e17 : ((F32.fin 1) * (F32.fin 3) : F32) = F32.fin 3 := by
    rw [F32.mul_fin]
    exact F32.ofExact_eval_pos _ 1 12582912 (-22) (by norm_num) (by norm_num) (by norm_num)
      (by norm_num [abs_lt]) (by norm_num) (by norm_num)
  have e18 : ((F32.fin 3) * (F32.fin 1) : F32) = F32.fin 3 := by
    rw [F32.mul_fin]
    exact F32.ofExact_eval_pos _ 1 12582912 (-22) (by norm_num) (by norm_num) (by norm_num)
      (by norm_num [abs_lt]) (by norm_num) (by norm_num)
  have e19 : ((F32.fin 3) / (F32.fin (13981013 / 16777216)) : F32) = F32.fin (15099495 / 4194304) := by
    rw [F32.div_fin _ _ (by norm_num)]
    exact F32.ofExact_eval_pos _ 1 15099495 (-22) (by norm_num) (by norm_num) (by norm_num)
      (by norm_num [abs_lt]) (by norm_num) (by norm_num)
  have e20 : ((F32.fin 0) + (F32.fin (15099495 / 4194304)) : F32) = F32.fin (15099495 / 4194304) := by
    rw [F32.add_fin]
    exact F32.ofExact_eval_pos _ 1 15099495 (-22) (by norm_num) (by norm_num) (by norm_num)
      (by norm_num [abs_lt]) (by norm_num) (by norm_num)
  have e21 : Fmod (F32.fin (15099495 / 4194304)) (F32.fin 360) = F32.fin (15099495 / 4194304) :=
    Fmod_eval 0 (by norm_num) (truncQ_of_nonneg 0 (by norm_num) (by norm_num) (by norm_num))
      (by norm_num) (by norm_num)
  have e22 : ((F32.fin 360) * (F32.fin 1) : F32) = F32.fin 360 := by
    rw [F32.mul_fin]
    exact F32.ofExact_eval_pos _ 8 11796480 (-15) (by norm_num) (by norm_num) (by norm_num)
      (by norm_num [abs_lt]) (by norm_num) (by norm_num)
  have e23 : ((F32.fin 360) / (F32.fin 100) : F32) = F32.fin (7549747 / 2097152) := by
    rw [F32.div_fin _ _ (by norm_num)]
    exact F32.ofExact_eval_pos _ 1 15099494 (-22) (by norm_num) (by norm_num) (by norm_num)
      (by norm_num [abs_lt]) (by norm_num) (by norm_num)
  have hroot : hundredBody.m_Root ≠ none := by simp [hundredBody, ACelestialBody.ctor]
  have hkm1 : F32.eq (kmPerDegree hundredBody 1) 0 = false := by
    simp only [kmPerDegree, hundredBody, ACelestialBody.ctor, F32.ofNat_eq, Nat.cast_ofNat, Nat.cast_one, Nat.cast_zero,
      e1, e2, e3, e4, e5, e6, e7, e8, e9, e10, e11, e12, e13, e14, e15, e16, e17, e18, e19, e20, e21, e22, e23]
  have hkm3 : F32.eq (kmPerDegree hundredBody 3) 0 = false := by
    simp only [kmPerDegree, hundredBody, ACelestialBody.ctor, F32.ofNat_eq, Nat.cast_ofNat, Nat.cast_one, Nat.cast_zero,
      e1, e2, e3, e4, e5, e6, e7, e8, e9, e10, e11, e12, e13, e14, e15, e16, e17, e18, e19, e20, e21, e22, e23]
  obtain ⟨s1, hs1, ha1, -⟩ :=
    Move_returns sampleEngine hundredBody originParent 0 1 1 1 hroot hkm1
  obtain ⟨s3, hs3, ha3, -⟩ :=
    Move_returns sampleEngine hundredBody originParent 0 1 3 1 hroot hkm3
  have hv1 : s1.m_Angle = F32.fin (7549747 / 2097152) := by
    rw [ha1]
    simp only [CalculateVelocity, GetAngleToCenter, angleIncrement, kmPerDegree, sampleEngine_toFMath,
      sampleMath_DEG_TO_RAD, hundredBody, ACelestialBody.ctor,
      F32.ofNat_eq, Nat.cast_ofNat, Nat.cast_one, Nat.cast_zero, sampleMath_Sin_zero,
      e1, e2, e3, e4, e5, e6, e7, e8, e9, e10, e11, e12, e13, e14, e15, e16, e17, e18, e19, e20, e21, e22, e23]
  have hv3 : s3.m_Angle = F32.fin (15099495 / 4194304) := by
    rw [ha3]
    simp only [CalculateVelocity, GetAngleToCenter, angleIncrement, kmPerDegree, sampleEngine_toFMath,
      sampleMath_DEG_TO_RAD, hundredBody, ACelestialBody.ctor,
      F32.ofNat_eq, Nat.cast_ofNat, Nat.cast_one, Nat.cast_zero, sampleMath_Sin_zero,
      e1, e2, e3, e4, e5, e6, e7, e8, e9, e10, e11, e12, e13, e14, e15, e16, e17, e18, e19, e20, e21, e22, e23]
  refine ⟨hkm1, hkm3, ?_, s1, s3, hs1, hs3, hv1, hv3, ?_⟩
  · simp only [F32.ofNat_eq, Nat.cast_ofNat, Nat.cast_one, Nat.cast_zero, e1, e2, e3, e4, e5, e6, e7, e8, e9, e10, e11, e12, e13, e14, e15, e16, e17, e18, e19, e20, e21, e22, e23]
  · rw [hv1, hv3]
    intro h
    simp only [F32.fin.injEq] at h
    norm_num at h

/-- C10 (amended): when `Move` can run (root component, parent and centre
present, computed `kmPerDegree` not 0) it returns and the stored angle is the
remainder modulo 360 of the old angle plus
`velocity * distanceScale * orbitDistanceScale * timeScale * delta / kmPerDegree`,
every operation in single precision, with the velocity taken at the angle
before the step; the same angle is stored when the sign of `distanceScale` or
the sign of the orbit-distance scale is changed. -/
theorem C10_increment_and_scale (E : Engine) (b : ACelestialBody F32) (p : AttachParent F32)
    (c timeScale distanceScale delta : F32)
    (hroot : b.m_Root ≠ none) (hkm : F32.eq (kmPerDegree b distanceScale) 0 = false) :
    ∃ s, Move E b (some p) (some c) timeScale distanceScale delta = .returned s
      ∧ s.m_Angle
          = Fmod (b.m_Angle
              + CalculateVelocity E.toFMath b (GetAngleToCenter b * E.DEG_TO_RAD)
                  * distanceScale * b.m_OrbitDistanceScale * timeScale * delta
                  / (b.m_Perimeter * distanceScale * b.m_OrbitDistanceScale / 360)) 360
      ∧ (∃ s2, Move E b (some p) (some c) timeScale (-distanceScale) delta = .returned s2
          ∧ s2.m_Angle = s.m_Angle)
      ∧ (∃ s3, Move E { b with m_OrbitDistanceScale := -b.m_OrbitDistanceScale } (some p)
            (some c) timeScale distanceScale delta = .returned s3
          ∧ s3.m_Angle = s.m_Angle) := by
  obtain ⟨s, hs, ha, -⟩ := Move_returns E b p c timeScale distanceScale delta hroot hkm
  have hkm2 : F32.eq (kmPerDegree b (-distanceScale)) 0 = false := by
    have : kmPerDegree b (-distanceScale) = -kmPerDegree b distanceScale := by
      unfold kmPerDegree
      rw [F32.mul_neg, F32.neg_mul, F32.neg_div]
    rw [this, F32.eq_neg_zero]
    exact hkm
  have hkm3 : F32.eq (kmPerDegree { b with m_OrbitDistanceScale := -b.m_OrbitDistanceScale }
      distanceScale) 0 = false := by
    have : kmPerDegree { b with m_OrbitDistanceScale := -b.m_OrbitDistanceScale } distanceScale
        = -kmPerDegree b distanceScale := by
      unfold kmPerDegree
      simp only
      rw [F32.mul_neg, F32.neg_div]
    rw [this, F32.eq_neg_zero]
    exact hkm
  obtain ⟨s2, hs2, ha2, -⟩ :=
    Move_returns E b p c timeScale (-distanceScale) delta hroot hkm2
  obtain ⟨s3, hs3, ha3, -⟩ :=
    Move_returns E { b with m_OrbitDistanceScale := -b.m_OrbitDistanceScale } p c timeScale
      distanceScale delta hroot hkm3
  refine ⟨s, hs, ha, ⟨s2, hs2, ?_⟩, ⟨s3, hs3, ?_⟩⟩
  · rw [ha2, ha]
    congr 2
    unfold angleIncrement kmPerDegree
    simp only [F32.mul_neg, F32.neg_mul, F32.neg_div, F32.div_neg, F32.neg_neg_eq]
  · rw [ha3, ha]
    congr 2
    unfold angleIncrement kmPerDegree CalculateVelocity GetAngleToCenter
    simp only [F32.mul_neg, F32.neg_mul, F32.neg_div, F32.div_neg, F32.neg_neg_eq]

/-- C10 (amended), instance: the body that moves one degree per unit of time,
with `timeScale = distanceScale = delta = 1`. -/
theorem C10_increment_and_scale_witness :
    ∃ s, Move sampleEngine unitSpeedBody (some originParent) (some 0) 1 1 1 = .returned s
      ∧ s.m_Angle
          = Fmod (unitSpeedBody.m_Angle
              + CalculateVelocity sampleEngine.toFMath unitSpeedBody
                  (GetAngleToCenter unitSpeedBody * sampleEngine.DEG_TO_RAD)
                  * 1 * unitSpeedBody.m_OrbitDistanceScale * 1 * 1
                  / (unitSpeedBody.m_Perimeter * 1 * unitSpeedBody.m_OrbitDistanceScale / 360))
              360
      ∧ (∃ s2, Move sampleEngine unitSpeedBody (some originParent) (some 0) 1 (-1) 1
            = .returned s2
          ∧ s2.m_Angle = s.m_Angle)
      ∧ (∃ s3, Move sampleEngine
            { unitSpeedBody with m_OrbitDistanceScale := -unitSpeedBody.m_OrbitDistanceScale }
            (some originParent) (some 0) 1 1 1 = .returned s3
          ∧ s3.m_Angle = s.m_Angle) :=
  C10_increment_and_scale sampleEngine unitSpeedBody originParent 0 1 1 1
    (by simp [unitSpeedBody, ACelestialBody.ctor])
    (by rw [kmPerDegree_unitSpeedBody]; exact eq_one_zero)

end CelestialBody
